/-
Verification of the nphusl conversion pipeline (nphusl/nphusl.py).

The numeric kernels are embedded per pixel over the real numbers.  IEEE-754
special values matter for several functions (masked divisions by zero, NaN
replacement, the running minimum over ray lengths), so scalars that can become
infinite or NaN are modelled by the type `NF`: an exact real number, `pinf`,
`ninf`, or `nan`, with arithmetic following IEEE-754 semantics (without
rounding, overflow, or signed zero; zero divisors are treated as +0, which is
numpy's default zero).

The modules `nphusl.constants` and `nphusl.transform` are imported by
`nphusl.py` but are not part of the sources; definitions taken from them are
marked `Modelled from the spec:` in their doc comments and follow the
specification's description (with the standard HUSL reference constants).
-/
import Mathlib

namespace NPHusl

noncomputable section

/-- Floats idealized as exact reals plus the IEEE special values. -/
inductive NF where
  | fin : ℝ → NF
  | pinf : NF
  | ninf : NF
  | nan : NF

namespace NF

/-- IEEE negation. -/
def neg : NF → NF
  | fin x => fin (-x)
  | pinf => ninf
  | ninf => pinf
  | nan => nan

/-- IEEE addition. -/
def add : NF → NF → NF
  | fin x, fin y => fin (x + y)
  | fin _, pinf => pinf
  | fin _, ninf => ninf
  | pinf, fin _ => pinf
  | ninf, fin _ => ninf
  | pinf, pinf => pinf
  | ninf, ninf => ninf
  | pinf, ninf => nan
  | ninf, pinf => nan
  | nan, _ => nan
  | _, nan => nan

/-- IEEE subtraction, as addition of the negation. -/
def sub (a b : NF) : NF := add a (neg b)

/-- IEEE multiplication. -/
def mul : NF → NF → NF
  | fin x, fin y => fin (x * y)
  | fin x, pinf => if x = 0 then nan else if 0 < x then pinf else ninf
  | fin x, ninf => if x = 0 then nan else if 0 < x then ninf else pinf
  | pinf, fin y => if y = 0 then nan else if 0 < y then pinf else ninf
  | ninf, fin y => if y = 0 then nan else if 0 < y then ninf else pinf
  | pinf, pinf => pinf
  | pinf, ninf => ninf
  | ninf, pinf => ninf
  | ninf, ninf => pinf
  | nan, _ => nan
  | _, nan => nan

/-- IEEE division (a zero divisor counts as +0, numpy's default zero). -/
def div : NF → NF → NF
  | fin x, fin y =>
      if y = 0 then (if x = 0 then nan else if 0 < x then pinf else ninf)
      else fin (x / y)
  | fin _, pinf => fin 0
  | fin _, ninf => fin 0
  | pinf, fin y => if 0 ≤ y then pinf else ninf
  | ninf, fin y => if 0 ≤ y then ninf else pinf
  | pinf, pinf => nan
  | pinf, ninf => nan
  | ninf, pinf => nan
  | ninf, ninf => nan
  | nan, _ => nan
  | _, nan => nan

/-- numpy's `minimum`: NaN if either argument is NaN, else the smaller value. -/
def min : NF → NF → NF
  | nan, _ => nan
  | _, nan => nan
  | ninf, _ => ninf
  | _, ninf => ninf
  | pinf, y => y
  | x, pinf => x
  | fin x, fin y => fin (Min.min x y)

/-- IEEE strict order (False whenever a NaN is involved). -/
def lt : NF → NF → Prop
  | nan, _ => False
  | _, nan => False
  | fin x, fin y => x < y
  | fin _, pinf => True
  | fin _, ninf => False
  | pinf, _ => False
  | ninf, pinf => True
  | ninf, fin _ => True
  | ninf, ninf => False

/-- IEEE non-strict order (False whenever a NaN is involved). -/
def le : NF → NF → Prop
  | nan, _ => False
  | _, nan => False
  | fin x, fin y => x ≤ y
  | fin _, pinf => True
  | fin _, ninf => False
  | pinf, pinf => True
  | pinf, _ => False
  | ninf, _ => True

/-- Test for NaN (numpy's `isnan`). -/
def isNaN : NF → Bool
  | nan => true
  | _ => false

/-- Test for an infinity (numpy's `isinf`). -/
def isInf : NF → Bool
  | pinf => true
  | ninf => true
  | _ => false

instance : Neg NF := ⟨NF.neg⟩
instance : Add NF := ⟨NF.add⟩
instance : Sub NF := ⟨NF.sub⟩
instance : Mul NF := ⟨NF.mul⟩
instance : Div NF := ⟨NF.div⟩
instance : LT NF := ⟨NF.lt⟩
instance : LE NF := ⟨NF.le⟩

instance (a b : NF) : Decidable (a < b) := by
  cases a <;> cases b <;> simp only [LT.lt, NF.lt] <;>
    first
    | exact inferInstance
    | exact Real.decidableLT _ _

instance (a b : NF) : Decidable (a ≤ b) := by
  cases a <;> cases b <;> simp only [LE.le, NF.le] <;>
    first
    | exact inferInstance
    | exact Real.decidableLE _ _

end NF

/-- The largest finite IEEE double, (2^53 - 1) * 2^971; numpy's `nan_to_num`
replaces +inf by it and -inf by its negation. -/
noncomputable def FMAX : ℝ := (2 ^ 53 - 1) * 2 ^ 971

/-- numpy's `nan_to_num` with default arguments: NaN becomes 0, infinities
become the extreme finite doubles. -/
noncomputable def NF.nan_to_num : NF → ℝ
  | NF.fin x => x
  | NF.nan => 0
  | NF.pinf => FMAX
  | NF.ninf => -FMAX

/-! Constants.  `nphusl.py` imports them from `nphusl.constants`, which is not
part of the sources; the values below are modelled from the spec (which calls
them fixed domain constants of the reference HUSL algorithm) using the
reference implementation's values. -/

/-- Modelled from the spec: `constants.EPSILON`, the fixed epsilon threshold of
the reference HUSL algorithm. -/
def EPSILON : ℝ := 0.0088564516790356308

/-- Modelled from the spec: `constants.KAPPA`, a fixed domain constant of the
reference HUSL algorithm. -/
def KAPPA : ℝ := 903.2962962962963

/-- Modelled from the spec: `constants.REF_U` (white-point chromaticity). -/
def REF_U : ℝ := 0.19783000664283

/-- Modelled from the spec: `constants.REF_V` (white-point chromaticity). -/
def REF_V : ℝ := 0.46831999493879

/-- Modelled from the spec: `constants.REF_Y` (white-point luminance). -/
def REF_Y : ℝ := 1.0

/-- Modelled from the spec: `constants.M`, the XYZ-to-RGB matrix, given as its
three rows. -/
def M : Fin 3 → ℝ × ℝ × ℝ
  | 0 => (3.240969941904521, -1.537383177570093, -0.498610760293)
  | 1 => (-0.96924363628087, 1.87596750150772, 0.041555057407175)
  | 2 => (0.055630079696993, -0.20397695888897, 1.056971514242878)

/-- Modelled from the spec: `constants.M_INV`, the RGB-to-XYZ matrix, given as
its three rows. -/
def M_INV : Fin 3 → ℝ × ℝ × ℝ
  | 0 => (0.41239079926595, 0.35758433938387, 0.18048078840183)
  | 1 => (0.21263900587151, 0.71516867876775, 0.072192315360733)
  | 2 => (0.019330818715591, 0.11919477979462, 0.95053215224966)

/-- Source `L_MAX` from nphusl.py: lightness above this is treated as white. -/
def L_MAX : ℝ := 99.99

/-- Source `L_MIN` from nphusl.py: lightness below this is treated as black. -/
def L_MIN : ℝ := 0.01

/-- Column `n` of `M` (`M_CONSTS[..., n]` in nphusl.py), as the vector of its
three rows' entries; `TOP1_SCALAR` and friends combine these columns. -/
def M1 (r : Fin 3) : ℝ := (M r).1

/-- Column 1 of `M` (see `M1`). -/
def M2 (r : Fin 3) : ℝ := (M r).2.1

/-- Column 2 of `M` (see `M1`). -/
def M3 (r : Fin 3) : ℝ := (M r).2.2

/-- Source `TOP1_SCALAR` from nphusl.py. -/
def TOP1_SCALAR (r : Fin 3) : ℝ := 284517.0 * M1 r - 94839.0 * M3 r

/-- Source `TOP2_SCALAR` from nphusl.py. -/
def TOP2_SCALAR (r : Fin 3) : ℝ :=
  838422.0 * M3 r + 769860.0 * M2 r + 731718.0 * M1 r

/-- Source `TOP2_L_SCALAR` from nphusl.py. -/
def TOP2_L_SCALAR : ℝ := 769860.0

/-- Source `BOTTOM_SCALAR` from nphusl.py. -/
def BOTTOM_SCALAR (r : Fin 3) : ℝ := 632260.0 * M3 r - 126452.0 * M2 r

/-- Source `BOTTOM_CONST` from nphusl.py. -/
def BOTTOM_CONST : ℝ := 126452.0

/-! The conversion kernels of nphusl.py, embedded per pixel.  The numpy
kernels apply the same scalar operations independently to every row of the
canonical (N, 3) array, so a pixel-level function composed with `List.map` is
the value-level semantics of each kernel. -/

/-- One scalar of `_to_linear` (inverse sRGB gamma); `a = 0.055`. -/
def to_linear_c (c : ℝ) : ℝ :=
  if c > 0.04045 then ((c + 0.055) / (1 + 0.055)) ^ (2.4 : ℝ) else c / 12.92

/-- Source `_to_linear` on one pixel. -/
def to_linear (p : ℝ × ℝ × ℝ) : ℝ × ℝ × ℝ :=
  (to_linear_c p.1, to_linear_c p.2.1, to_linear_c p.2.2)

/-- Row-times-pixel dot product (`np.sum(scalars[r] * rgb_nd, axis=-1)`). -/
def dot3 (row p : ℝ × ℝ × ℝ) : ℝ :=
  row.1 * p.1 + row.2.1 * p.2.1 + row.2.2 * p.2.2

/-- Value semantics of `_dot_product` on one pixel: the three row dot
products.  (Its numpy shape behaviour, `dstack` plus `squeeze`, is modelled
separately by `dot_product_shape`.) -/
def dot_product (m : Fin 3 → ℝ × ℝ × ℝ) (p : ℝ × ℝ × ℝ) : ℝ × ℝ × ℝ :=
  (dot3 (m 0) p, dot3 (m 1) p, dot3 (m 2) p)

/-- Source `_rgb_to_xyz` on one pixel. -/
def rgb_to_xyz (p : ℝ × ℝ × ℝ) : ℝ × ℝ × ℝ :=
  dot_product M_INV (to_linear p)

/-- One scalar of `_to_light`. -/
def to_light (y : ℝ) : ℝ :=
  if y > EPSILON then (y / REF_Y) ^ ((1 : ℝ) / 3) * 116 - 16
  else y / REF_Y * KAPPA

/-- Source `_xyz_to_luv` on one pixel.  The chromaticity ratios are IEEE divisions;
an infinite ratio is replaced by 0 (`U_var[np.isinf(U_var)] = 0`), a NaN ratio
propagates into U or V and is zeroed by the final `np.nan_to_num`.  The
assignment `luv_flat[L == 0] = 0` happens before U and V are written (they are
views into the same array and overwrite it), so it does not appear here. -/
def xyz_to_luv (p : ℝ × ℝ × ℝ) : ℝ × ℝ × ℝ :=
  let x := p.1
  let y := p.2.1
  let z := p.2.2
  let uVar0 : NF := NF.fin (4 * x) / NF.fin (x + 15 * y + 3 * z)
  let vVar0 : NF := NF.fin (9 * y) / NF.fin (x + 15 * y + 3 * z)
  let uVar := if uVar0.isInf then NF.fin 0 else uVar0
  let vVar := if vVar0.isInf then NF.fin 0 else vVar0
  let lig := to_light y
  let u : NF := NF.fin (lig * 13) * (uVar - NF.fin REF_U)
  let v : NF := NF.fin (lig * 13) * (vVar - NF.fin REF_V)
  (lig, u.nan_to_num, v.nan_to_num)

/-- Source `_luv_to_lch` on one pixel.  `np.arctan2(V, U)` is the angle of the point
(U, V), i.e. `Complex.arg` of U + V*i (the in-place `-0.0` fix before `atan2`
is the identity on real values; its mutation of the input array is modelled by
`luv_to_lch_inplace`).  `np.degrees(x)` is `x * 180 / pi`. -/
def luv_to_lch (p : ℝ × ℝ × ℝ) : ℝ × ℝ × ℝ :=
  let u := p.2.1
  let v := p.2.2
  let c := (u ^ 2 + v ^ 2) ^ (0.5 : ℝ)
  let hdeg := Complex.arg ⟨u, v⟩ * (180 / Real.pi)
  (p.1, c, if hdeg < 0 then hdeg + 360 else hdeg)

/-- Source `_bounds`' intermediate term: the cubic `((l+16)^3)/1560896`, replaced by
`l / KAPPA` where the cubic is below `EPSILON`. -/
def bounds_sub (l : ℝ) : ℝ :=
  let sub1 := (l + 16) ^ 3 / 1560896
  if sub1 < EPSILON then l / KAPPA else sub1

/-- One boundary line (slope, intercept) produced by `_bounds` for row `r` and
polarity `t`; the slope is `top1 / bottom` and the intercept `top2 / bottom`,
as IEEE divisions. -/
def bound_line (l : ℝ) (r : Fin 3) (t : Bool) : NF × NF :=
  let sub2 := bounds_sub l
  let top1 := sub2 * TOP1_SCALAR r
  let top2 :=
    if t then l * sub2 * TOP2_SCALAR r - l * TOP2_L_SCALAR
    else l * sub2 * TOP2_SCALAR r
  let bottom :=
    if t then sub2 * BOTTOM_SCALAR r + BOTTOM_CONST
    else sub2 * BOTTOM_SCALAR r
  (NF.fin top1 / NF.fin bottom, NF.fin top2 / NF.fin bottom)

/-- Source `_bounds` on one lightness value: the six lines, in the iteration order of
the source (rows outer, polarity inner). -/
def bounds (l : ℝ) : List (NF × NF) :=
  [bound_line l 0 false, bound_line l 0 true,
   bound_line l 1 false, bound_line l 1 true,
   bound_line l 2 false, bound_line l 2 true]

/-- Source `_ray_length` on one line: `b1 / (sin theta - m1 * cos theta)` where the
line is `(m1, b1)`. -/
def ray_length (theta : ℝ) (line : NF × NF) : NF :=
  line.2 / (NF.fin (Real.sin theta) - line.1 * NF.fin (Real.cos theta))

/-- The two in-place masks of `_max_lh_chroma`: NaN lengths become infinite,
then negative lengths become infinite. -/
def mask_len (x : NF) : NF :=
  let x1 := if x.isNaN then NF.pinf else x
  if x1 < NF.fin 0 then NF.pinf else x1

/-- Source `_max_lh_chroma` on one (lightness, hue) pair: a running `np.minimum` over
the six masked ray lengths, starting from infinity. -/
def max_lh_chroma (l h : ℝ) : NF :=
  let hrad := h / 360.0 * (Real.pi * 2)
  (bounds l).foldl (fun acc line => NF.min (mask_len (ray_length hrad line)) acc)
    NF.pinf

/-- The maximum chroma as the spec words it (for claim C5): the minimum over
the six boundary lines of the ray length `intercept / (sin h - slope * cos h)`,
where any line whose length is negative or NaN is treated as infinite
(excluded from the minimum). -/
def spec_max_chroma (l h : ℝ) : NF :=
  let hrad := h / 360.0 * (Real.pi * 2)
  (List.map (fun line =>
      let len := ray_length hrad line
      if len.isNaN = true ∨ len < NF.fin 0 then NF.pinf else len)
    (bounds l)).foldr NF.min NF.pinf

/-- Source `_lch_to_husl` on one pixel (input channel order L, C, H; output H, S, L).
The saturation of a pixel at a lightness extreme is 0 and its lightness is
clamped; otherwise `S = (C / mx) * 100`. -/
def lch_to_husl (p : ℝ × ℝ × ℝ) : ℝ × NF × ℝ :=
  let l := p.1
  let c := p.2.1
  let h := p.2.2
  if l > L_MAX then (h, NF.fin 0, 100)
  else if l < L_MIN then (h, NF.fin 0, 0)
  else (h, NF.fin c / max_lh_chroma l h * NF.fin 100, l)

/-- Source `_rgb_to_husl` on one pixel (float input; `transform.rgb_float_input`
passes float arrays through unchanged). -/
def rgb_to_husl (p : ℝ × ℝ × ℝ) : ℝ × NF × ℝ :=
  lch_to_husl (luv_to_lch (xyz_to_luv (rgb_to_xyz p)))

/-- Source `_husl_to_lch` on one pixel (input channel order H, S, L; output L, C, H).
The maximum chroma is computed for every pixel, `C = mx / 100 * S`, and the
lightness extremes are then overridden. -/
def husl_to_lch (p : ℝ × ℝ × ℝ) : ℝ × NF × ℝ :=
  let h := p.1
  let s := p.2.1
  let l := p.2.2
  let mx := max_lh_chroma l h
  let c := mx / NF.fin 100.0 * NF.fin s
  if l > L_MAX then (100, NF.fin 0, h)
  else if l < L_MIN then (0, NF.fin 0, h)
  else (l, c, h)

/-- Source `_lch_to_luv` on one pixel: `np.radians(H)` is `H * pi / 180`, then
`U = cos(hrad) * C`, `V = sin(hrad) * C`. -/
def lch_to_luv (p : ℝ × NF × ℝ) : ℝ × NF × NF :=
  let hrad := p.2.2 * (Real.pi / 180)
  (p.1, NF.fin (Real.cos hrad) * p.2.1, NF.fin (Real.sin hrad) * p.2.1)

/-- One scalar of `_from_light` (inverse lightness function). -/
def from_light (l : ℝ) : ℝ :=
  if l > 8 then REF_Y * (((l + 16) / 116) ^ (3.0 : ℝ))
  else REF_Y * l / KAPPA

/-- Source `_luv_to_xyz` on one pixel.  The `U_var`/`V_var` ratios have their
infinities masked to 0; X and Z are IEEE expressions whose NaNs are zeroed by
the final `np.nan_to_num` (which also turns a surviving infinity into the
extreme finite double); rows with `L == 0` are zeroed before that. -/
def luv_to_xyz (p : ℝ × NF × NF) : ℝ × ℝ × ℝ :=
  let l := p.1
  let u := p.2.1
  let v := p.2.2
  let uVar0 := u / NF.fin (13.0 * l) + NF.fin REF_U
  let vVar0 := v / NF.fin (13.0 * l) + NF.fin REF_V
  let uVar := if uVar0.isInf then NF.fin 0 else uVar0
  let vVar := if vVar0.isInf then NF.fin 0 else vVar0
  let yy : NF := NF.fin (from_light l * REF_Y)
  let xx : NF :=
    -(NF.fin 9 * yy * uVar) / ((uVar - NF.fin 4.0) * vVar - uVar * vVar)
  let zz : NF :=
    (NF.fin 9.0 * yy - NF.fin 15.0 * vVar * yy - vVar * xx) / (NF.fin 3.0 * vVar)
  if l = 0 then (0, 0, 0) else (xx.nan_to_num, yy.nan_to_num, zz.nan_to_num)

/-- One scalar of `_from_linear` (forward sRGB gamma). -/
def from_linear_c (x : ℝ) : ℝ :=
  if x ≤ 0.0031308 then 12.92 * x else 1.055 * x ^ (1 / (2.4 : ℝ)) - 0.055

/-- Source `_xyz_to_rgb` on one pixel. -/
def xyz_to_rgb (p : ℝ × ℝ × ℝ) : ℝ × ℝ × ℝ :=
  let d := dot_product M p
  (from_linear_c d.1, from_linear_c d.2.1, from_linear_c d.2.2)

/-- Source `_husl_to_rgb` on one pixel. -/
def husl_to_rgb (p : ℝ × ℝ × ℝ) : ℝ × ℝ × ℝ :=
  xyz_to_rgb (luv_to_xyz (lch_to_luv (husl_to_lch p)))

/-! The chunked executor.  `transform.in_chunks` is not part of the sources;
it is modelled from the spec: the N rows are partitioned into consecutive
slices of at most `chunksize` rows, the kernel runs once per slice, and the
slice results are assembled in order; with no chunk size the whole array is
one chunk. -/

/-- Consecutive slices of at most `k` rows (`k = 0` would be rejected with
`InvalidChunkSizeError`; here it yields no chunks). -/
def chunks (k : Nat) : List α → List (List α)
  | [] => []
  | x :: xs =>
    if _h : k = 0 then []
    else List.take k (x :: xs) :: chunks k (List.drop k (x :: xs))
termination_by l => l.length
decreasing_by
  simp only [List.length_drop, List.length_cons]
  omega

/-- Modelled from the spec: `transform.in_chunks` — apply the kernel to each
chunk and concatenate the results; `none` processes the whole array at once. -/
def in_chunks (f : List α → List β) : Option Nat → List α → List β
  | none, xs => f xs
  | some k, xs => (List.map f (chunks k xs)).flatten

/-- Source `_rgb_to_husl` as an array kernel. -/
def rgb_to_husl_nd : List (ℝ × ℝ × ℝ) → List (ℝ × NF × ℝ) :=
  List.map rgb_to_husl

/-- Source `_rgb_to_hue` as an array kernel: the hue channel of `_rgb_to_husl`. -/
def rgb_to_hue_nd (xs : List (ℝ × ℝ × ℝ)) : List ℝ :=
  List.map (fun q => q.1) (rgb_to_husl_nd xs)

/-- Source `_husl_to_rgb` as an array kernel. -/
def husl_to_rgb_nd : List (ℝ × ℝ × ℝ) → List (ℝ × ℝ × ℝ) :=
  List.map husl_to_rgb

/-- Modelled from the spec: `transform.rgb_int_output` — the float RGB result
(working range 0.0 to 1.0) becomes an integer array with channel range 0-255.
-/
def rgb_int_output (xs : List (ℝ × ℝ × ℝ)) : List (ℤ × ℤ × ℤ) :=
  List.map (fun p => (round (p.1 * 255), round (p.2.1 * 255), round (p.2.2 * 255))) xs

/-- Source `to_husl` on the canonical pixel-list layout (the shape adapters of the
missing `transform` module normalize to and restore from this layout). -/
def to_husl (chunksize : Option Nat) (img : List (ℝ × ℝ × ℝ)) :
    List (ℝ × NF × ℝ) :=
  in_chunks rgb_to_husl_nd chunksize img

/-- Source `to_hue` on the canonical pixel-list layout. -/
def to_hue (chunksize : Option Nat) (img : List (ℝ × ℝ × ℝ)) : List ℝ :=
  in_chunks rgb_to_hue_nd chunksize img

/-- Source `to_rgb` on the canonical pixel-list layout (the `rgb_int_output`
decorator converts the assembled float result to integers). -/
def to_rgb (chunksize : Option Nat) (img : List (ℝ × ℝ × ℝ)) :
    List (ℤ × ℤ × ℤ) :=
  rgb_int_output (in_chunks husl_to_rgb_nd chunksize img)

/-! Backend registry and dispatch (`optimized` in nphusl.py). -/

/-- The four implementation tiers a kernel name can resolve to. -/
inductive Impl where
  | reference : Impl
  | numexpr : Impl
  | cython : Impl
  | simd : Impl
deriving DecidableEq

/-- The module-level `_NUMEXPR_ENABLED` / `_CYTHON_ENABLED` / `_SIMD_ENABLED`
flags. -/
structure Flags where
  numexpr : Bool
  cython : Bool
  simd : Bool
deriving DecidableEq

/-- Which optional modules imported successfully and define the kernel name
(`getattr(expr, fn.__name__, None)` and friends). -/
structure Avail where
  numexpr : Bool
  cython : Bool
  simd : Bool
deriving DecidableEq

/-- The selection made by the `optimized` decorator: each tier's candidate is
`None` unless its module is available and its enabled flag is set, then
`opt_fn = simd_fn or cython_fn or expr_fn` and `result_fn = opt_fn or fn`. -/
def optimized (fl : Flags) (av : Avail) : Impl :=
  let exprFn : Option Impl :=
    if fl.numexpr then (if av.numexpr then some Impl.numexpr else none) else none
  let cythonFn : Option Impl :=
    if fl.cython then (if av.cython then some Impl.cython else none) else none
  let simdFn : Option Impl :=
    if fl.simd then (if av.simd then some Impl.simd else none) else none
  ((simdFn <|> cythonFn) <|> exprFn).getD Impl.reference

/-- Module state after import: `optimized` ran once per kernel at decoration
time and bound the module-level name to its result. -/
structure ModuleState where
  flags : Flags
  avail : Avail
  callee : Impl

/-- Importing the module decorates the kernels with the flags' initial values
(all True by default). -/
def import_module (fl : Flags) (av : Avail) : ModuleState :=
  ⟨fl, av, optimized fl av⟩

/-- Mutating the enabled flags (e.g. `nphusl._SIMD_ENABLED = False`) changes
the flags only; the already-decorated binding is untouched. -/
def set_flags (s : ModuleState) (fl : Flags) : ModuleState :=
  ⟨fl, s.avail, s.callee⟩

/-- Calling the module-level kernel name executes whatever it was bound to. -/
def call (s : ModuleState) : Impl := s.callee

/-- The dispatch the spec describes: resolved from the flags current at call
time, by the fixed preference order SIMD, compiled, expression, reference. -/
def dispatch_at_call (s : ModuleState) : Impl :=
  if s.flags.simd ∧ s.avail.simd then Impl.simd
  else if s.flags.cython ∧ s.avail.cython then Impl.cython
  else if s.flags.numexpr ∧ s.avail.numexpr then Impl.numexpr
  else Impl.reference

/-! Shape semantics of `_dot_product` (claim C10).  numpy shapes are modelled
as dimension lists. -/

/-- numpy's `squeeze`: remove every singleton dimension. -/
def squeeze (s : List Nat) : List Nat := s.filter (fun d => d ≠ 1)

/-- numpy's `atleast_3d` on shapes of rank at most 3. -/
def atleast_3d : List Nat → List Nat
  | [] => [1, 1, 1]
  | [n] => [1, n, 1]
  | [a, b] => [a, b, 1]
  | s => s

/-- numpy's `dstack` of three same-shape arrays: `atleast_3d` each, then
concatenate along axis 2. -/
def dstack3 (s : List Nat) : List Nat :=
  match atleast_3d s with
  | [a, b, c] => [a, b, 3 * c]
  | s' => s'

/-- Source `np.sum(..., axis=rank-1)` drops the last axis. -/
def sum_last_shape (s : List Nat) : List Nat := s.dropLast

/-- The shape of `_dot_product`'s result for an input of the given shape: the
three row sums are stacked with `dstack` and the result is squeezed of all
singleton dimensions. -/
def dot_product_shape (s : List Nat) : List Nat :=
  squeeze (dstack3 (sum_last_shape s))

/-! In-place behaviour of `_luv_to_lch` (claim C9).  Array cells are modelled
with an explicit negative-zero flag, the one bit of float state the kernel's
`uv_nd[uv_nd == -0.0] = 0.0` line can change; `uv_nd` is a view of the
caller's array restricted to the U channel, so the write mutates the input. -/

/-- A stored float cell: its real value plus whether it is the negative zero
(in which case the value is 0). -/
structure FCell where
  val : ℝ
  negZero : Bool

/-- The in-place fix on one row: cells of the U channel comparing equal to
`-0.0` (i.e. with value 0, of either sign) are overwritten with `+0.0`. -/
def luv_row_fix (p : FCell × FCell × FCell) : FCell × FCell × FCell :=
  (p.1, if p.2.1.val = 0 then ⟨0, false⟩ else p.2.1, p.2.2)

/-- Source `_luv_to_lch` with its mutation made explicit: the result is (state of the
caller's input array after the call, LCH output).  The output is computed from
the fixed values (`lch_nd = luv_nd.copy()` runs after the fix). -/
def luv_to_lch_inplace (input : List (FCell × FCell × FCell)) :
    List (FCell × FCell × FCell) × List (ℝ × ℝ × ℝ) :=
  let fixed := List.map luv_row_fix input
  (fixed, List.map (fun q => luv_to_lch (q.1.val, q.2.1.val, q.2.2.val)) fixed)

end

/-! Basic lemmas about `NF` arithmetic. -/

theorem NF.fin_add_fin (a b : ℝ) : NF.fin a + NF.fin b = NF.fin (a + b) := rfl

theorem NF.fin_mul_fin (a b : ℝ) : NF.fin a * NF.fin b = NF.fin (a * b) := rfl

theorem NF.fin_sub_fin (a b : ℝ) : NF.fin a - NF.fin b = NF.fin (a - b) := by
  show NF.sub _ _ = _
  simp [NF.sub, NF.add, NF.neg, sub_eq_add_neg]

theorem NF.neg_fin (a : ℝ) : -NF.fin a = NF.fin (-a) := rfl

theorem NF.fin_div_fin {b : ℝ} (a : ℝ) (h : b ≠ 0) :
    NF.fin a / NF.fin b = NF.fin (a / b) := by
  show NF.div _ _ = _
  simp [NF.div, h]

theorem NF.fin_div_zero_pos {a : ℝ} (h : 0 < a) :
    NF.fin a / NF.fin 0 = NF.pinf := by
  show NF.div _ _ = _
  simp [NF.div, h, h.ne']

theorem NF.fin_div_zero_neg {a : ℝ} (h : a < 0) :
    NF.fin a / NF.fin 0 = NF.ninf := by
  show NF.div _ _ = _
  simp [NF.div, h.ne, not_lt.mpr h.le]

theorem NF.zero_div_zero : NF.fin 0 / NF.fin 0 = NF.nan := by
  show NF.div _ _ = _
  simp [NF.div]

theorem NF.fin_mul_nan (a : ℝ) : NF.fin a * NF.nan = NF.nan := rfl

theorem NF.nan_mul (x : NF) : NF.nan * x = NF.nan := by
  cases x <;> rfl

theorem NF.fin_sub_nan (a : ℝ) : NF.fin a - NF.nan = NF.nan := rfl

theorem NF.nan_div (x : NF) : NF.nan / x = NF.nan := by
  cases x <;> rfl

theorem NF.fin_mul_ninf_zero : NF.fin 0 * NF.ninf = NF.nan := by
  show NF.mul _ _ = _
  simp [NF.mul]

theorem NF.isInf_fin (a : ℝ) : (NF.fin a).isInf = false := rfl

theorem NF.isInf_nan : (NF.nan).isInf = false := rfl

theorem NF.isNaN_fin (a : ℝ) : (NF.fin a).isNaN = false := rfl

theorem NF.nan_to_num_fin (a : ℝ) : (NF.fin a).nan_to_num = a := rfl

theorem NF.nan_to_num_nan : (NF.nan).nan_to_num = 0 := rfl

theorem NF.nan_to_num_ninf : (NF.ninf).nan_to_num = -FMAX := rfl

theorem NF.fin_lt_fin {a b : ℝ} : NF.fin a < NF.fin b ↔ a < b := Iff.rfl

theorem NF.fin_le_fin {a b : ℝ} : NF.fin a ≤ NF.fin b ↔ a ≤ b := Iff.rfl

theorem NF.not_pinf_le_fin (a : ℝ) : ¬(NF.pinf ≤ NF.fin a) := fun h => h

theorem NF.not_nan_le_fin (a : ℝ) : ¬(NF.nan ≤ NF.fin a) := fun h => h

theorem NF.fin_le_pinf (a : ℝ) : NF.fin a ≤ NF.pinf := trivial

theorem NF.min_fin_fin (a b : ℝ) :
    NF.min (NF.fin a) (NF.fin b) = NF.fin (Min.min a b) := rfl

theorem NF.min_pinf_left (x : NF) : NF.min NF.pinf x = x := by
  cases x <;> rfl

theorem NF.min_pinf_right (x : NF) : NF.min x NF.pinf = x := by
  cases x <;> rfl

theorem NF.min_commutative (x y : NF) : NF.min x y = NF.min y x := by
  cases x <;> cases y <;> simp [NF.min] <;> exact min_comm _ _

theorem NF.min_associative (x y z : NF) :
    NF.min (NF.min x y) z = NF.min x (NF.min y z) := by
  cases x <;> cases y <;> cases z <;> simp [NF.min] <;> exact min_assoc _ _ _

/-- The masks of `_max_lh_chroma` on a finite length: only the sign matters. -/
theorem mask_len_fin (a : ℝ) :
    mask_len (NF.fin a) = if a < 0 then NF.pinf else NF.fin a := by
  by_cases h : a < 0 <;>
    simp [mask_len, NF.isNaN, NF.fin_lt_fin, h]

theorem mask_len_nan : mask_len NF.nan = NF.pinf := rfl

theorem mask_len_pinf : mask_len NF.pinf = NF.pinf := rfl

theorem mask_len_ninf : mask_len NF.ninf = NF.pinf := by
  have h2 : NF.ninf < NF.fin 0 := trivial
  simp [mask_len, NF.isNaN, h2]

/-- The two sequential masks coincide with the single spec-side test. -/
theorem mask_len_eq (x : NF) :
    mask_len x = if x.isNaN = true ∨ x < NF.fin 0 then NF.pinf else x := by
  cases x with
  | fin a =>
    rw [mask_len_fin]
    by_cases h : a < 0
    · rw [if_pos h, if_pos (Or.inr (NF.fin_lt_fin.mpr h))]
    · rw [if_neg h, if_neg]
      rintro (hc | hc)
      · exact absurd hc (by simp [NF.isNaN])
      · exact h (NF.fin_lt_fin.mp hc)
  | pinf =>
    rw [mask_len_pinf, if_neg]
    rintro (hc | hc)
    · exact absurd hc (by simp [NF.isNaN])
    · exact hc
  | ninf =>
    rw [mask_len_ninf,
      if_pos (Or.inr (show NF.ninf < NF.fin 0 from trivial))]
  | nan =>
    rw [mask_len_nan,
      if_pos (Or.inl (show NF.nan.isNaN = true from rfl))]

/-- A running `np.minimum` from infinity is the fold of `NF.min` with
identity infinity. -/
theorem foldl_min_eq_foldr (xs : List NF) (acc : NF) :
    xs.foldl (fun a x => NF.min x a) acc = NF.min (xs.foldr NF.min NF.pinf) acc := by
  induction xs generalizing acc with
  | nil => simp [NF.min_pinf_left]
  | cons x xs ih =>
    simp only [List.foldl_cons, List.foldr_cons]
    rw [ih (NF.min x acc)]
    calc NF.min (xs.foldr NF.min NF.pinf) (NF.min x acc)
        = NF.min (NF.min (xs.foldr NF.min NF.pinf) x) acc :=
          (NF.min_associative _ x acc).symm
      _ = NF.min (NF.min x (xs.foldr NF.min NF.pinf)) acc := by
          rw [NF.min_commutative (xs.foldr NF.min NF.pinf) x]

/-! Chunking lemmas. -/

theorem chunks_flatten (k : Nat) (hk : k ≠ 0) :
    ∀ xs : List α, (chunks k xs).flatten = xs
  | [] => by simp [chunks]
  | x :: xs => by
    rw [chunks]
    rw [dif_neg hk, List.flatten_cons,
      chunks_flatten k hk (List.drop k (x :: xs)), List.take_append_drop]
termination_by xs => xs.length
decreasing_by
  simp only [List.length_drop, List.length_cons]
  omega

theorem in_chunks_map (g : α → β) (k : Nat) (hk : 1 ≤ k) (xs : List α) :
    in_chunks (List.map g) (some k) xs = in_chunks (List.map g) none xs := by
  simp only [in_chunks]
  rw [← List.map_flatten, chunks_flatten k (by omega) xs]

/-- C1: for every array, converting with any chunk size k ≥ 1 yields exactly
the result of converting the whole array in one pass (chunk size `none`), for
`to_husl`, `to_rgb` and `to_hue` alike. -/
theorem C1_chunk_invariance (k : Nat) (hk : 1 ≤ k) :
    (∀ img, to_husl (some k) img = to_husl none img) ∧
    (∀ img, to_rgb (some k) img = to_rgb none img) ∧
    (∀ img, to_hue (some k) img = to_hue none img) := by
  have hhue : rgb_to_hue_nd = List.map (fun p => (rgb_to_husl p).1) := by
    funext xs
    simp [rgb_to_hue_nd, rgb_to_husl_nd, List.map_map]
  refine ⟨fun img => ?_, fun img => ?_, fun img => ?_⟩
  · exact in_chunks_map rgb_to_husl k hk img
  · exact congrArg rgb_int_output (in_chunks_map husl_to_rgb k hk img)
  · show in_chunks rgb_to_hue_nd (some k) img = in_chunks rgb_to_hue_nd none img
    rw [hhue]
    exact in_chunks_map _ k hk img

/-- Witness for C1 at chunk size 2 on a concrete one-pixel image. -/
theorem C1_witness :
    1 ≤ 2 ∧ to_husl (some 2) [((0 : ℝ), (0 : ℝ), (0 : ℝ))]
      = to_husl none [((0 : ℝ), (0 : ℝ), (0 : ℝ))] :=
  ⟨by decide, (C1_chunk_invariance 2 (by decide)).1 _⟩

/-- C4 counterexample: at lightness exactly 99.99 (the threshold itself, so
"L ≥ 99.99" holds) the white override does not fire: the output lightness is
99.99, not 100. -/
theorem C4_extreme_counterexample :
    (99.99 : ℝ) ≥ L_MAX ∧ (lch_to_husl (99.99, 1, 0)).2.2 ≠ 100 := by
  refine ⟨by norm_num [L_MAX], ?_⟩
  simp only [lch_to_husl, L_MAX, L_MIN]
  rw [if_neg (by norm_num), if_neg (by norm_num)]
  norm_num

/-- C4 amended: the overrides fire for L strictly above 99.99 (saturation 0,
lightness exactly 100) and strictly below 0.01 (saturation 0, lightness
exactly 0), and symmetrically in the HUSL-to-LCH direction (chroma 0,
lightness clamped), overriding any computed chroma. -/
theorem C4_extreme_amended :
    (∀ l c h : ℝ, l > L_MAX → lch_to_husl (l, c, h) = (h, NF.fin 0, 100)) ∧
    (∀ l c h : ℝ, l < L_MIN → lch_to_husl (l, c, h) = (h, NF.fin 0, 0)) ∧
    (∀ h s l : ℝ, l > L_MAX → husl_to_lch (h, s, l) = (100, NF.fin 0, h)) ∧
    (∀ h s l : ℝ, l < L_MIN → husl_to_lch (h, s, l) = (0, NF.fin 0, h)) := by
  refine ⟨fun l c h hl => ?_, fun l c h hl => ?_,
    fun h s l hl => ?_, fun h s l hl => ?_⟩
  · simp only [lch_to_husl]
    rw [if_pos hl]
  · have : ¬(l > L_MAX) := by
      simp only [L_MAX]
      simp only [L_MIN] at hl
      intro hc
      linarith
    simp only [lch_to_husl]
    rw [if_neg this, if_pos hl]
  · simp only [husl_to_lch]
    rw [if_pos hl]
  · have : ¬(l > L_MAX) := by
      simp only [L_MAX]
      simp only [L_MIN] at hl
      intro hc
      linarith
    simp only [husl_to_lch]
    rw [if_neg this, if_pos hl]

/-- Witness for C4 amended, at lightness 100 and 0. -/
theorem C4_witness :
    ((100 : ℝ) > L_MAX ∧ lch_to_husl (100, 5, 30) = (30, NF.fin 0, 100)) ∧
    ((0 : ℝ) < L_MIN ∧ husl_to_lch (30, 5, 0) = (0, NF.fin 0, 30)) := by
  have h1 : (100 : ℝ) > L_MAX := by norm_num [L_MAX]
  have h2 : (0 : ℝ) < L_MIN := by norm_num [L_MIN]
  exact ⟨⟨h1, C4_extreme_amended.1 100 5 30 h1⟩,
    ⟨h2, C4_extreme_amended.2.2.2 30 5 0 h2⟩⟩

/-- C6 counterexample: at L = 1 the cubic term is below EPSILON although L is
not, so the code substitutes L / KAPPA where the claim (which tests L itself
against epsilon) says the term stays the cubic; the two values differ. -/
theorem C6_bounds_sub_counterexample :
    bounds_sub 1 = 1 / KAPPA ∧ ¬((1 : ℝ) < EPSILON) ∧
    (1 : ℝ) / KAPPA ≠ ((1 : ℝ) + 16) ^ 3 / 1560896 := by
  refine ⟨?_, by norm_num [EPSILON], by norm_num [KAPPA]⟩
  simp only [bounds_sub]
  rw [if_pos (by norm_num [EPSILON])]

/-- C6 amended: the replacement test is on the cubic term itself, not on L:
`sub` equals `((L+16)^3)/1560896` when that value is at least EPSILON, and is
replaced by `L / KAPPA` when that value is below EPSILON. -/
theorem C6_bounds_sub_amended (l : ℝ) :
    ((l + 16) ^ 3 / 1560896 < EPSILON → bounds_sub l = l / KAPPA) ∧
    (¬((l + 16) ^ 3 / 1560896 < EPSILON) →
      bounds_sub l = (l + 16) ^ 3 / 1560896) := by
  constructor <;> intro h <;> simp only [bounds_sub] <;>
    first
    | rw [if_pos h]
    | rw [if_neg h]

/-- Witness for C6 amended: both branches, at L = 1 and L = 50. -/
theorem C6_witness :
    (((1 : ℝ) + 16) ^ 3 / 1560896 < EPSILON ∧ bounds_sub 1 = 1 / KAPPA) ∧
    (¬(((50 : ℝ) + 16) ^ 3 / 1560896 < EPSILON) ∧
      bounds_sub 50 = ((50 : ℝ) + 16) ^ 3 / 1560896) := by
  have h1 : ((1 : ℝ) + 16) ^ 3 / 1560896 < EPSILON := by norm_num [EPSILON]
  have h2 : ¬(((50 : ℝ) + 16) ^ 3 / 1560896 < EPSILON) := by norm_num [EPSILON]
  exact ⟨⟨h1, (C6_bounds_sub_amended 1).1 h1⟩,
    ⟨h2, (C6_bounds_sub_amended 50).2 h2⟩⟩

/-- C8 counterexample: with every backend available and enabled, the module
binds the kernel to the SIMD implementation at decoration time; after the
SIMD tier is disabled, a call still executes the SIMD implementation, while
call-time dispatch over the current flags would pick the compiled one. -/
theorem C8_dispatch_counterexample :
    call (set_flags (import_module ⟨true, true, true⟩ ⟨true, true, true⟩)
      ⟨true, true, false⟩) = Impl.simd ∧
    dispatch_at_call (set_flags (import_module ⟨true, true, true⟩
      ⟨true, true, true⟩) ⟨true, true, false⟩) = Impl.cython ∧
    Impl.simd ≠ Impl.cython := by
  exact ⟨rfl, rfl, by simp⟩

/-- C8 amended: `optimized` resolves exactly once, at decoration time, to the
highest-preference implementation (SIMD over compiled over expression over
reference) among those available and enabled at that moment; mutating the
enabled flags afterwards does not change what an already-decorated kernel
executes. -/
theorem C8_dispatch_amended :
    (∀ fl av, optimized fl av = dispatch_at_call (import_module fl av)) ∧
    (∀ s fl, call (set_flags s fl) = call s) := by
  constructor
  · intro fl av
    rcases fl with ⟨e, c, s⟩
    rcases av with ⟨e', c', s'⟩
    cases e <;> cases c <;> cases s <;> cases e' <;> cases c' <;> cases s' <;> rfl
  · intro s fl
    rfl

/-- C9 counterexample: a LUV input whose U cell holds -0.0 is mutated in place
by `_luv_to_lch` (the cell becomes +0.0), so the caller's array is not
identical before and after. -/
theorem C9_mutation_counterexample :
    (luv_to_lch_inplace [(⟨50, false⟩, ⟨0, true⟩, ⟨3, false⟩)]).1 ≠
      [(⟨50, false⟩, ⟨0, true⟩, ⟨3, false⟩)] := by
  simp [luv_to_lch_inplace, luv_row_fix]

/-- C9 amended: `_luv_to_lch` does write into its input: the caller's array
after the call is the input with every zero-valued U cell overwritten by +0.0
(visible exactly on -0.0 cells); an input with no zero-valued U cell is left
unchanged. -/
theorem C9_mutation_amended :
    (∀ input : List (FCell × FCell × FCell),
        (luv_to_lch_inplace input).1 = List.map luv_row_fix input) ∧
    (∀ input : List (FCell × FCell × FCell),
        (∀ p ∈ input, ¬(p.2.1.val = 0 ∧ p.2.1.negZero = true)) →
        (luv_to_lch_inplace input).1 = input) := by
  constructor
  · intro input
    rfl
  · intro input h
    show List.map luv_row_fix input = input
    have hfix : ∀ p : FCell × FCell × FCell,
        ¬(p.2.1.val = 0 ∧ p.2.1.negZero = true) → luv_row_fix p = p := by
      rintro ⟨a, b, c⟩ hnot
      simp only [luv_row_fix]
      by_cases hv : b.val = 0
      · rw [if_pos hv]
        have hz : b.negZero = false := by
          cases hb : b.negZero
          · rfl
          · exact absurd ⟨hv, hb⟩ hnot
        have hb2 : b = ⟨0, false⟩ := by
          cases b with
          | mk v nz =>
            simp only at hv hz
            rw [hv, hz]
        rw [← hb2]
      · rw [if_neg hv]
    have : ∀ p ∈ input, luv_row_fix p = p := fun p hp => hfix p (h p hp)
    calc List.map luv_row_fix input = List.map id input := List.map_congr_left this
    _ = input := List.map_id input

/-- Witness for C9 amended: an input with a nonzero U cell is unchanged. -/
theorem C9_witness :
    (∀ p ∈ [((⟨1, false⟩ : FCell), (⟨2, false⟩ : FCell), (⟨3, false⟩ : FCell))],
        ¬(p.2.1.val = 0 ∧ p.2.1.negZero = true)) ∧
    (luv_to_lch_inplace [(⟨1, false⟩, ⟨2, false⟩, ⟨3, false⟩)]).1 =
      [(⟨1, false⟩, ⟨2, false⟩, ⟨3, false⟩)] := by
  have h : ∀ p ∈ [((⟨1, false⟩ : FCell), (⟨2, false⟩ : FCell), (⟨3, false⟩ : FCell))],
      ¬(p.2.1.val = 0 ∧ p.2.1.negZero = true) := by
    intro p hp
    simp only [List.mem_singleton] at hp
    rw [hp]
    norm_num
  exact ⟨h, C9_mutation_amended.2 _ h⟩

/-- C10: a single-row canonical input of shape (1, 3) comes out of
`_dot_product` with shape (3,), not (1, 3) — the `squeeze` removes every
singleton dimension — while inputs with two or more rows keep their batch
dimension. -/
theorem C10_dot_product_shape :
    dot_product_shape [1, 3] = [3] ∧ dot_product_shape [1, 3] ≠ [1, 3] ∧
    (∀ n : Nat, 2 ≤ n → dot_product_shape [n, 3] = [n, 3]) := by
  refine ⟨rfl, by decide, fun n hn => ?_⟩
  have hn1 : n ≠ 1 := by omega
  simp [dot_product_shape, sum_last_shape, dstack3, atleast_3d, squeeze,
    List.filter, hn1]

/-- Witness for C10 at n = 2. -/
theorem C10_witness : 2 ≤ 2 ∧ dot_product_shape [2, 3] = [2, 3] :=
  ⟨by decide, C10_dot_product_shape.2.2 2 (by decide)⟩

/-- C5: for every (lightness, hue) pair, `_max_lh_chroma` returns the minimum
over the six boundary lines of `intercept / (sin hrad - slope * cos hrad)`,
with any line whose length is negative or NaN treated as infinite (excluded
from the minimum). -/
theorem C5_max_chroma_refines_spec (l h : ℝ) :
    max_lh_chroma l h = spec_max_chroma l h := by
  simp only [max_lh_chroma, spec_max_chroma]
  have hmask : (fun line : NF × NF =>
      let len := ray_length (h / 360.0 * (Real.pi * 2)) line
      if len.isNaN = true ∨ len < NF.fin 0 then NF.pinf else len)
      = fun line => mask_len (ray_length (h / 360.0 * (Real.pi * 2)) line) := by
    funext line
    rw [mask_len_eq]
  rw [hmask, ← List.foldl_map (fun line : NF × NF =>
      mask_len (ray_length (h / 360.0 * (Real.pi * 2)) line))
      (fun a x => NF.min x a),
    foldl_min_eq_foldr, NF.min_pinf_right]

theorem NF.nan_sub (x : NF) : NF.nan - x = NF.nan := by
  cases x <;> rfl

theorem NF.pinf_sub_fin (a : ℝ) : NF.pinf - NF.fin a = NF.pinf := rfl

theorem NF.ninf_sub_fin (a : ℝ) : NF.ninf - NF.fin a = NF.ninf := rfl

theorem NF.fin_mul_pinf_pos {a : ℝ} (h : 0 < a) :
    NF.fin a * NF.pinf = NF.pinf := by
  show NF.mul _ _ = _
  simp [NF.mul, h, h.ne']

theorem NF.fin_mul_ninf_pos {a : ℝ} (h : 0 < a) :
    NF.fin a * NF.ninf = NF.ninf := by
  show NF.mul _ _ = _
  simp [NF.mul, h, h.ne']

/-- Masked zero-denominator chromaticity ratio minus a reference constant:
NaN when the numerator is 0 (0/0), else the infinity is masked to 0 first. -/
theorem masked_div_zero_sub (a r : ℝ) :
    (if (NF.fin a / NF.fin 0).isInf = true then NF.fin 0
      else NF.fin a / NF.fin 0) - NF.fin r
    = if a = 0 then NF.nan else NF.fin (0 - r) := by
  rcases lt_trichotomy a 0 with h | h | h
  · rw [NF.fin_div_zero_neg h, if_neg h.ne]
    simp [NF.isInf, NF.fin_sub_fin]
  · subst h
    simp [NF.zero_div_zero, NF.isInf, NF.nan_sub]
  · rw [NF.fin_div_zero_pos h, if_neg h.ne']
    simp [NF.isInf, NF.fin_sub_fin]

/-- Evaluation of `_luv_to_xyz` at the input (50, 0, -650 * REF_V), where the
`V_var` chromaticity is exactly 0: the X denominator is a zero division whose
infinity survives `np.nan_to_num` as the extreme finite double, while the NaN
in Z is zeroed. -/
theorem luv_to_xyz_vvar_zero_eval :
    luv_to_xyz (50, NF.fin 0, NF.fin (-(650 * REF_V))) =
      (-FMAX, from_light 50 * REF_Y, 0) := by
  have h650 : (13.0 : ℝ) * 50 ≠ 0 := by norm_num
  have hdivu : NF.fin 0 / NF.fin ((13.0 : ℝ) * 50) = NF.fin 0 := by
    rw [NF.fin_div_fin 0 h650]
    norm_num
  have hdivv : NF.fin (-(650 * REF_V)) / NF.fin ((13.0 : ℝ) * 50)
      = NF.fin (-REF_V) := by
    rw [NF.fin_div_fin _ h650]
    congr 1
    ring
  have hu0 : (0 + REF_U : ℝ) = REF_U := by ring
  have hvv : (-REF_V + REF_V : ℝ) = 0 := by ring
  have hflpos : 0 < from_light 50 := by
    rw [from_light, if_pos (by norm_num)]
    rw [REF_Y]
    norm_num
  have hnum : (-(9 * (from_light 50 * REF_Y) * REF_U) : ℝ) < 0 := by
    rw [REF_Y, REF_U]
    nlinarith [hflpos]
  have hden : ((REF_U - 4.0) * 0 - REF_U * 0 : ℝ) = 0 := by ring
  simp only [luv_to_xyz, hdivu, hdivv, NF.fin_add_fin, hu0, hvv,
    NF.isInf_fin, Bool.false_eq_true, if_false, NF.fin_sub_fin,
    NF.fin_mul_fin, NF.neg_fin, hden]
  rw [if_neg (by norm_num : ¬(50 : ℝ) = 0)]
  rw [NF.fin_div_zero_neg hnum]
  rw [NF.fin_mul_ninf_zero, NF.fin_sub_nan, NF.nan_div, NF.nan_to_num_ninf,
    NF.nan_to_num_fin, NF.nan_to_num_nan]

/-- C7 counterexample: in `_luv_to_xyz`, at the LUV input (50, 0, -650*REF_V)
the X chromaticity denominator is exactly zero, yet the X entry of the result
is the extreme finite double (magnitude FMAX, about 1.8e308), not 0: the
infinite quotient survives the isinf masks (which only guard U_var and V_var)
and `np.nan_to_num` maps it to the largest finite float. -/
theorem C7_divzero_counterexample :
    ((REF_U - 4.0) * 0 - REF_U * 0 : ℝ) = 0 ∧
    (luv_to_xyz (50, NF.fin 0, NF.fin (-(650 * REF_V)))).1 ≠ 0 ∧
    |(luv_to_xyz (50, NF.fin 0, NF.fin (-(650 * REF_V)))).1| = FMAX := by
  have hF : (0 : ℝ) < FMAX := by
    rw [FMAX]
    positivity
  refine ⟨by ring, ?_, ?_⟩
  · rw [luv_to_xyz_vvar_zero_eval]
    show -FMAX ≠ 0
    simp only [neg_ne_zero]
    exact hF.ne'
  · rw [luv_to_xyz_vvar_zero_eval]
    show |(-FMAX)| = FMAX
    rw [abs_neg, abs_of_pos hF]

/-- C7 amended: in `_xyz_to_luv` a zero chromaticity denominator never
surfaces as infinity or NaN: an infinite ratio is masked to 0 before use (so U
and V become `13L * (0 - ref)`), a NaN ratio (0/0) zeroes the affected entry
via the final `nan_to_num`, and nonzero denominators give the plain formulas;
but in `_luv_to_xyz` the X quotient with a zero denominator escapes the masks
and becomes the extreme finite double (magnitude FMAX) instead of 0. -/
theorem C7_divzero_amended :
    (∀ x y z : ℝ, x + 15 * y + 3 * z = 0 →
      xyz_to_luv (x, y, z) = (to_light y,
        if 4 * x = 0 then 0 else to_light y * 13 * (0 - REF_U),
        if 9 * y = 0 then 0 else to_light y * 13 * (0 - REF_V))) ∧
    (∀ x y z : ℝ, x + 15 * y + 3 * z ≠ 0 →
      xyz_to_luv (x, y, z) = (to_light y,
        to_light y * 13 * (4 * x / (x + 15 * y + 3 * z) - REF_U),
        to_light y * 13 * (9 * y / (x + 15 * y + 3 * z) - REF_V))) ∧
    (luv_to_xyz (50, NF.fin 0, NF.fin (-(650 * REF_V)))).1 = -FMAX := by
  refine ⟨fun x y z hden => ?_, fun x y z hden => ?_, ?_⟩
  · simp only [xyz_to_luv, hden, masked_div_zero_sub, Prod.mk.injEq]
    refine ⟨trivial, ?_, ?_⟩
    · by_cases h4 : 4 * x = 0
      · rw [if_pos h4, if_pos h4, NF.fin_mul_nan, NF.nan_to_num_nan]
      · rw [if_neg h4, if_neg h4, NF.fin_mul_fin, NF.nan_to_num_fin]
    · by_cases h9 : 9 * y = 0
      · rw [if_pos h9, if_pos h9, NF.fin_mul_nan, NF.nan_to_num_nan]
      · rw [if_neg h9, if_neg h9, NF.fin_mul_fin, NF.nan_to_num_fin]
  · simp only [xyz_to_luv]
    rw [NF.fin_div_fin _ hden, NF.fin_div_fin _ hden]
    simp only [NF.isInf_fin, Bool.false_eq_true, if_false, NF.fin_sub_fin,
      NF.fin_mul_fin, NF.nan_to_num_fin, Prod.mk.injEq]
  · rw [luv_to_xyz_vvar_zero_eval]

/-- Witness for C7 amended: the zero-denominator branch at XYZ (0, 1, -5) and
the regular branch at XYZ (1, 0, 0). -/
theorem C7_witness :
    ((0 : ℝ) + 15 * 1 + 3 * (-5) = 0 ∧
      xyz_to_luv (0, 1, -5) = (to_light 1, 0, to_light 1 * 13 * (0 - REF_V))) ∧
    ((1 : ℝ) + 15 * 0 + 3 * 0 ≠ 0 ∧
      xyz_to_luv (1, 0, 0) = (to_light 0,
        to_light 0 * 13 * (4 / 1 - REF_U), to_light 0 * 13 * (0 / 1 - REF_V))) := by
  have h1 : (0 : ℝ) + 15 * 1 + 3 * (-5) = 0 := by norm_num
  have h2 : (1 : ℝ) + 15 * 0 + 3 * 0 ≠ 0 := by norm_num
  have e1 := C7_divzero_amended.1 0 1 (-5) h1
  have e2 := C7_divzero_amended.2.1 1 0 0 h2
  refine ⟨⟨h1, ?_⟩, ⟨h2, ?_⟩⟩
  · rw [e1]
    norm_num
  · rw [e2]
    norm_num

/-! Further `NF` lemmas and constant evaluations, used for claim C3. -/

theorem NF.fin_div_pinf (a : ℝ) : NF.fin a / NF.pinf = NF.fin 0 := rfl

theorem NF.fin_sub_pinf (a : ℝ) : NF.fin a - NF.pinf = NF.ninf := rfl

theorem NF.fin_sub_ninf (a : ℝ) : NF.fin a - NF.ninf = NF.pinf := rfl

theorem NF.pinf_mul_fin_pos {y : ℝ} (h : 0 < y) :
    NF.pinf * NF.fin y = NF.pinf := by
  show NF.mul _ _ = _
  simp [NF.mul, h, h.ne']

theorem NF.ninf_mul_fin_pos {y : ℝ} (h : 0 < y) :
    NF.ninf * NF.fin y = NF.ninf := by
  show NF.mul _ _ = _
  simp [NF.mul, h, h.ne']

theorem NF.pinf_div_pinf : NF.pinf / NF.pinf = NF.nan := rfl

theorem NF.pinf_div_ninf : NF.pinf / NF.ninf = NF.nan := rfl

theorem NF.ninf_div_pinf : NF.ninf / NF.pinf = NF.nan := rfl

theorem NF.ninf_div_ninf : NF.ninf / NF.ninf = NF.nan := rfl

theorem NF.div_nan (x : NF) : x / NF.nan = NF.nan := by
  cases x <;> rfl

theorem M_eval_zero : M 0 = (3.240969941904521, -1.537383177570093, -0.498610760293) := rfl

theorem M_eval_one : M 1 = (-0.96924363628087, 1.87596750150772, 0.041555057407175) := rfl

theorem M_eval_two : M 2 = (0.055630079696993, -0.20397695888897, 1.056971514242878) := rfl

theorem M_INV_eval_zero : M_INV 0 = (0.41239079926595, 0.35758433938387, 0.18048078840183) := rfl

theorem M_INV_eval_one : M_INV 1 = (0.21263900587151, 0.71516867876775, 0.072192315360733) := rfl

theorem M_INV_eval_two : M_INV 2 = (0.019330818715591, 0.11919477979462, 0.95053215224966) := rfl

theorem TOP2_SCALAR_eval_zero :
    TOP2_SCALAR 0 = 838422.0 * (-0.498610760293) + 769860.0 * (-1.537383177570093)
      + 731718.0 * 3.240969941904521 := rfl

theorem TOP2_SCALAR_eval_one :
    TOP2_SCALAR 1 = 838422.0 * 0.041555057407175 + 769860.0 * 1.87596750150772
      + 731718.0 * (-0.96924363628087) := rfl

theorem TOP2_SCALAR_eval_two :
    TOP2_SCALAR 2 = 838422.0 * 1.056971514242878 + 769860.0 * (-0.20397695888897)
      + 731718.0 * 0.055630079696993 := rfl

/-- The `TOP2_SCALAR` entries lie strictly between 0 and 770000. -/
theorem TOP2_SCALAR_bounds (r : Fin 3) :
    0 < TOP2_SCALAR r ∧ TOP2_SCALAR r < 770000 := by
  rcases r with ⟨v, hv⟩
  interval_cases v
  · show 0 < TOP2_SCALAR 0 ∧ TOP2_SCALAR 0 < 770000
    rw [TOP2_SCALAR_eval_zero]
    constructor <;> norm_num
  · show 0 < TOP2_SCALAR 1 ∧ TOP2_SCALAR 1 < 770000
    rw [TOP2_SCALAR_eval_one]
    constructor <;> norm_num
  · show 0 < TOP2_SCALAR 2 ∧ TOP2_SCALAR 2 < 770000
    rw [TOP2_SCALAR_eval_two]
    constructor <;> norm_num

/-- For lightness in the non-extreme band, the intermediate `sub` term is
positive and below 0.9998. -/
theorem bounds_sub_band {l : ℝ} (h1 : ¬l > L_MAX) (h2 : ¬l < L_MIN) :
    0 < bounds_sub l ∧ bounds_sub l < 0.9998 := by
  have hl1 : l ≤ 99.99 := by
    simpa [L_MAX] using h1
  have hl2 : 0.01 ≤ l := by
    simpa [L_MIN] using h2
  rw [bounds_sub]
  by_cases hcase : (l + 16) ^ 3 / 1560896 < EPSILON
  · rw [if_pos hcase]
    constructor
    · rw [KAPPA]
      positivity
    · rw [KAPPA]
      rw [div_lt_iff (by norm_num)]
      nlinarith
  · rw [if_neg hcase]
    constructor
    · rw [EPSILON] at hcase
      nlinarith
    · have hcube : (l + 16) ^ 3 ≤ (115.99 : ℝ) ^ 3 := by
        have hb : l + 16 ≤ (115.99 : ℝ) := by linarith
        have ha : (0 : ℝ) ≤ l + 16 := by linarith
        exact pow_le_pow_left ha hb 3
      rw [div_lt_iff (by norm_num)]
      nlinarith

/-- The `t = 1` boundary lines' numerators stay away from zero on the
non-extreme lightness band: `sub * TOP2_SCALAR r < 769860`. -/
theorem sub_top2_lt {l : ℝ} (h1 : ¬l > L_MAX) (h2 : ¬l < L_MIN) (r : Fin 3) :
    bounds_sub l * TOP2_SCALAR r < 769860 := by
  obtain ⟨hs0, hs1⟩ := bounds_sub_band h1 h2
  obtain ⟨ht0, ht1⟩ := TOP2_SCALAR_bounds r
  nlinarith

/-- The numerator `top2` of every boundary line is nonzero on the non-extreme
lightness band. -/
theorem top2_ne_zero {l : ℝ} (h1 : ¬l > L_MAX) (h2 : ¬l < L_MIN)
    (r : Fin 3) (t : Bool) :
    (if t then l * bounds_sub l * TOP2_SCALAR r - l * TOP2_L_SCALAR
     else l * bounds_sub l * TOP2_SCALAR r) ≠ 0 := by
  have hl0 : 0 < l := by
    have : 0.01 ≤ l := by simpa [L_MIN] using h2
    linarith
  obtain ⟨hs0, _⟩ := bounds_sub_band h1 h2
  obtain ⟨ht0, _⟩ := TOP2_SCALAR_bounds r
  cases t with
  | false =>
    simp only [if_false, Bool.false_eq_true]
    positivity
  | true =>
    simp only [if_true]
    have hlt := sub_top2_lt h1 h2 r
    rw [TOP2_L_SCALAR]
    have : l * bounds_sub l * TOP2_SCALAR r - l * 769860.0
        = l * (bounds_sub l * TOP2_SCALAR r - 769860.0) := by ring
    rw [this]
    apply mul_ne_zero hl0.ne'
    have : bounds_sub l * TOP2_SCALAR r - 769860.0 < 0 := by linarith
    exact this.ne

/-- Every masked ray length is infinite or a nonnegative finite value. -/
theorem mask_len_shape (y : NF) :
    mask_len y = NF.pinf ∨ ∃ m, mask_len y = NF.fin m ∧ 0 ≤ m := by
  cases y with
  | fin a =>
    rw [mask_len_fin]
    by_cases h : a < 0
    · rw [if_pos h]
      left
      rfl
    · rw [if_neg h]
      right
      exact ⟨a, rfl, not_lt.mp h⟩
  | pinf =>
    left
    exact mask_len_pinf
  | ninf =>
    left
    exact mask_len_ninf
  | nan =>
    left
    exact mask_len_nan

/-- A running minimum of infinite-or-nonnegative values from infinity stays
infinite or nonnegative (in particular it is never NaN). -/
theorem foldl_min_shape (g : α → NF) (xs : List α) (acc : NF)
    (hacc : acc = NF.pinf ∨ ∃ m, acc = NF.fin m ∧ 0 ≤ m)
    (helem : ∀ x ∈ xs, g x = NF.pinf ∨ ∃ m, g x = NF.fin m ∧ 0 ≤ m) :
    xs.foldl (fun a x => NF.min (g x) a) acc = NF.pinf ∨
      ∃ m, xs.foldl (fun a x => NF.min (g x) a) acc = NF.fin m ∧ 0 ≤ m := by
  induction xs generalizing acc with
  | nil => exact hacc
  | cons x xs ih =>
    simp only [List.foldl_cons]
    apply ih
    · have hx := helem x (List.mem_cons_self x xs)
      rcases hx with hx | ⟨m1, hx, hm1⟩ <;>
        rcases hacc with ha | ⟨m2, ha, hm2⟩
      · rw [hx, ha]
        left
        rfl
      · rw [hx, ha]
        right
        exact ⟨m2, NF.min_pinf_left _, hm2⟩
      · rw [hx, ha]
        right
        exact ⟨m1, NF.min_pinf_right _, hm1⟩
      · rw [hx, ha, NF.min_fin_fin]
        right
        exact ⟨Min.min m1 m2, rfl, le_min hm1 hm2⟩
    · intro y hy
      exact helem y (List.mem_cons_of_mem x hy)

/-- Strict variant of `foldl_min_shape`: if every element is infinite or
strictly positive, so is the running minimum. -/
theorem foldl_min_shape_pos (g : α → NF) (xs : List α) (acc : NF)
    (hacc : acc = NF.pinf ∨ ∃ m, acc = NF.fin m ∧ 0 < m)
    (helem : ∀ x ∈ xs, g x = NF.pinf ∨ ∃ m, g x = NF.fin m ∧ 0 < m) :
    xs.foldl (fun a x => NF.min (g x) a) acc = NF.pinf ∨
      ∃ m, xs.foldl (fun a x => NF.min (g x) a) acc = NF.fin m ∧ 0 < m := by
  induction xs generalizing acc with
  | nil => exact hacc
  | cons x xs ih =>
    simp only [List.foldl_cons]
    apply ih
    · have hx := helem x (List.mem_cons_self x xs)
      rcases hx with hx | ⟨m1, hx, hm1⟩ <;>
        rcases hacc with ha | ⟨m2, ha, hm2⟩
      · rw [hx, ha]
        left
        rfl
      · rw [hx, ha]
        right
        exact ⟨m2, NF.min_pinf_left _, hm2⟩
      · rw [hx, ha]
        right
        exact ⟨m1, NF.min_pinf_right _, hm1⟩
      · rw [hx, ha, NF.min_fin_fin]
        right
        exact ⟨Min.min m1 m2, rfl, lt_min hm1 hm2⟩
    · intro y hy
      exact helem y (List.mem_cons_of_mem x hy)

/-- Source `_max_lh_chroma` is never NaN and never negative: it is infinity or a
nonnegative finite value. -/
theorem max_lh_chroma_shape (l h : ℝ) :
    max_lh_chroma l h = NF.pinf ∨
      ∃ m, max_lh_chroma l h = NF.fin m ∧ 0 ≤ m := by
  simp only [max_lh_chroma]
  exact foldl_min_shape _ _ _ (Or.inl rfl) (fun x _ => mask_len_shape _)

/-- At hue angle 0 and non-extreme lightness, every masked ray length is
infinite or strictly positive (its numerator `top2` cannot vanish). -/
theorem ray_zero_shape (l : ℝ) (h1 : ¬l > L_MAX) (h2 : ¬l < L_MIN)
    (r : Fin 3) (t : Bool) :
    mask_len (ray_length 0 (bound_line l r t)) = NF.pinf ∨
      ∃ m, mask_len (ray_length 0 (bound_line l r t)) = NF.fin m ∧ 0 < m := by
  have htop2 := top2_ne_zero h1 h2 r t
  simp only [ray_length, bound_line, Real.sin_zero, Real.cos_zero]
  by_cases hbot : (if t then bounds_sub l * BOTTOM_SCALAR r + BOTTOM_CONST
      else bounds_sub l * BOTTOM_SCALAR r) = 0
  · rw [hbot]
    rcases lt_trichotomy
        (if t then l * bounds_sub l * TOP2_SCALAR r - l * TOP2_L_SCALAR
         else l * bounds_sub l * TOP2_SCALAR r) 0 with hic | hic | hic
    · rw [NF.fin_div_zero_neg hic]
      rcases lt_trichotomy (bounds_sub l * TOP1_SCALAR r) 0 with hs | hs | hs
      · rw [NF.fin_div_zero_neg hs, NF.ninf_mul_fin_pos (by norm_num),
          NF.fin_sub_ninf, NF.ninf_div_pinf, mask_len_nan]
        left
        rfl
      · rw [hs, NF.zero_div_zero, NF.nan_mul, NF.fin_sub_nan, NF.div_nan,
          mask_len_nan]
        left
        rfl
      · rw [NF.fin_div_zero_pos hs, NF.pinf_mul_fin_pos (by norm_num),
          NF.fin_sub_pinf, NF.ninf_div_ninf, mask_len_nan]
        left
        rfl
    · exact absurd hic htop2
    · rw [NF.fin_div_zero_pos hic]
      rcases lt_trichotomy (bounds_sub l * TOP1_SCALAR r) 0 with hs | hs | hs
      · rw [NF.fin_div_zero_neg hs, NF.ninf_mul_fin_pos (by norm_num),
          NF.fin_sub_ninf, NF.pinf_div_pinf, mask_len_nan]
        left
        rfl
      · rw [hs, NF.zero_div_zero, NF.nan_mul, NF.fin_sub_nan, NF.div_nan,
          mask_len_nan]
        left
        rfl
      · rw [NF.fin_div_zero_pos hs, NF.pinf_mul_fin_pos (by norm_num),
          NF.fin_sub_pinf, NF.pinf_div_ninf, mask_len_nan]
        left
        rfl
  · rw [NF.fin_div_fin _ hbot, NF.fin_div_fin _ hbot, NF.fin_mul_fin,
      NF.fin_sub_fin]
    have hicv : (if t then l * bounds_sub l * TOP2_SCALAR r - l * TOP2_L_SCALAR
        else l * bounds_sub l * TOP2_SCALAR r)
        / (if t then bounds_sub l * BOTTOM_SCALAR r + BOTTOM_CONST
           else bounds_sub l * BOTTOM_SCALAR r) ≠ 0 := div_ne_zero htop2 hbot
    by_cases hs : bounds_sub l * TOP1_SCALAR r
        / (if t then bounds_sub l * BOTTOM_SCALAR r + BOTTOM_CONST
           else bounds_sub l * BOTTOM_SCALAR r) = 0
    · have hden0 : (0 : ℝ) - bounds_sub l * TOP1_SCALAR r
          / (if t then bounds_sub l * BOTTOM_SCALAR r + BOTTOM_CONST
             else bounds_sub l * BOTTOM_SCALAR r) * 1 = 0 := by
        rw [hs]
        ring
      rw [hden0]
      rcases lt_or_gt_of_ne hicv with hic | hic
      · rw [NF.fin_div_zero_neg hic, mask_len_ninf]
        left
        rfl
      · rw [NF.fin_div_zero_pos hic, mask_len_pinf]
        left
        rfl
    · have hdenne : (0 : ℝ) - bounds_sub l * TOP1_SCALAR r
          / (if t then bounds_sub l * BOTTOM_SCALAR r + BOTTOM_CONST
             else bounds_sub l * BOTTOM_SCALAR r) * 1 ≠ 0 := by
        intro hc
        apply hs
        have : bounds_sub l * TOP1_SCALAR r
            / (if t then bounds_sub l * BOTTOM_SCALAR r + BOTTOM_CONST
               else bounds_sub l * BOTTOM_SCALAR r)
            = bounds_sub l * TOP1_SCALAR r
            / (if t then bounds_sub l * BOTTOM_SCALAR r + BOTTOM_CONST
               else bounds_sub l * BOTTOM_SCALAR r) * 1 := by ring
        rw [this]
        linarith
      rw [NF.fin_div_fin _ hdenne, mask_len_fin]
      have hval : (if t then l * bounds_sub l * TOP2_SCALAR r - l * TOP2_L_SCALAR
          else l * bounds_sub l * TOP2_SCALAR r)
          / (if t then bounds_sub l * BOTTOM_SCALAR r + BOTTOM_CONST
             else bounds_sub l * BOTTOM_SCALAR r)
          / ((0 : ℝ) - bounds_sub l * TOP1_SCALAR r
            / (if t then bounds_sub l * BOTTOM_SCALAR r + BOTTOM_CONST
               else bounds_sub l * BOTTOM_SCALAR r) * 1) ≠ 0 :=
        div_ne_zero hicv hdenne
      by_cases hneg : (if t then l * bounds_sub l * TOP2_SCALAR r - l * TOP2_L_SCALAR
          else l * bounds_sub l * TOP2_SCALAR r)
          / (if t then bounds_sub l * BOTTOM_SCALAR r + BOTTOM_CONST
             else bounds_sub l * BOTTOM_SCALAR r)
          / ((0 : ℝ) - bounds_sub l * TOP1_SCALAR r
            / (if t then bounds_sub l * BOTTOM_SCALAR r + BOTTOM_CONST
               else bounds_sub l * BOTTOM_SCALAR r) * 1) < 0
      · rw [if_pos hneg]
        left
        rfl
      · rw [if_neg hneg]
        right
        refine ⟨_, rfl, ?_⟩
        exact lt_of_le_of_ne (not_lt.mp hneg) (Ne.symm hval)

/-- At hue 0 and non-extreme lightness, `_max_lh_chroma` is infinite or
strictly positive (never zero and never NaN). -/
theorem max_lh_chroma_zero_hue (l : ℝ) (h1 : ¬l > L_MAX) (h2 : ¬l < L_MIN) :
    max_lh_chroma l 0 = NF.pinf ∨
      ∃ m, max_lh_chroma l 0 = NF.fin m ∧ 0 < m := by
  simp only [max_lh_chroma]
  have hrad0 : (0 : ℝ) / 360.0 * (Real.pi * 2) = 0 := by norm_num
  rw [hrad0]
  apply foldl_min_shape_pos
  · exact Or.inl rfl
  · intro line hline
    simp only [bounds, List.mem_cons, List.not_mem_nil, or_false] at hline
    rcases hline with rfl | rfl | rfl | rfl | rfl | rfl
    · exact ray_zero_shape l h1 h2 0 false
    · exact ray_zero_shape l h1 h2 0 true
    · exact ray_zero_shape l h1 h2 1 false
    · exact ray_zero_shape l h1 h2 1 true
    · exact ray_zero_shape l h1 h2 2 false
    · exact ray_zero_shape l h1 h2 2 true

/-- Source `_luv_to_lch` written out on one pixel. -/
theorem luv_to_lch_parts (l u v : ℝ) :
    luv_to_lch (l, u, v)
      = (l, (u ^ 2 + v ^ 2) ^ (0.5 : ℝ),
         if Complex.arg ⟨u, v⟩ * (180 / Real.pi) < 0
         then Complex.arg ⟨u, v⟩ * (180 / Real.pi) + 360
         else Complex.arg ⟨u, v⟩ * (180 / Real.pi)) := rfl

/-- The hue produced by `_luv_to_lch` is always in [0, 360). -/
theorem luv_to_lch_hue_range (l u v : ℝ) :
    0 ≤ (luv_to_lch (l, u, v)).2.2 ∧ (luv_to_lch (l, u, v)).2.2 < 360 := by
  rw [luv_to_lch_parts]
  simp only
  have hpi : 0 < Real.pi := Real.pi_pos
  have h1 : Complex.arg ⟨u, v⟩ ≤ Real.pi := Complex.arg_le_pi _
  have h2 : -Real.pi < Complex.arg ⟨u, v⟩ := Complex.neg_pi_lt_arg _
  have hub : Complex.arg ⟨u, v⟩ * (180 / Real.pi) ≤ 180 := by
    calc Complex.arg ⟨u, v⟩ * (180 / Real.pi)
        ≤ Real.pi * (180 / Real.pi) := by
          apply mul_le_mul_of_nonneg_right h1 (by positivity)
      _ = 180 := by field_simp
  have hlb : -180 < Complex.arg ⟨u, v⟩ * (180 / Real.pi) := by
    have hstep := mul_lt_mul_of_pos_right h2 (show 0 < 180 / Real.pi by positivity)
    calc (-180 : ℝ) = -Real.pi * (180 / Real.pi) := by
          field_simp
          ring
      _ < _ := hstep
  by_cases hneg : Complex.arg ⟨u, v⟩ * (180 / Real.pi) < 0
  · rw [if_pos hneg]
    constructor <;> linarith
  · rw [if_neg hneg]
    exact ⟨not_lt.mp hneg, by linarith⟩

/-- The chroma produced by `_luv_to_lch` is nonnegative. -/
theorem luv_to_lch_c_nonneg (l u v : ℝ) : 0 ≤ (luv_to_lch (l, u, v)).2.1 := by
  rw [luv_to_lch_parts]
  exact Real.rpow_nonneg (by positivity) _

/-- Zero chroma forces hue 0 in `_luv_to_lch` (U = V = 0 and atan2(0,0) = 0).
-/
theorem luv_to_lch_c_zero_hue (l u v : ℝ)
    (hc : (luv_to_lch (l, u, v)).2.1 = 0) :
    (luv_to_lch (l, u, v)).2.2 = 0 := by
  rw [luv_to_lch_parts] at hc ⊢
  simp only at hc ⊢
  have hbase : u ^ 2 + v ^ 2 = 0 := by
    by_contra hne
    have hpos : 0 < u ^ 2 + v ^ 2 :=
      lt_of_le_of_ne (by positivity) (Ne.symm hne)
    exact absurd hc (Real.rpow_pos_of_pos hpos _).ne'
  have hu : u = 0 := by nlinarith [sq_nonneg u, sq_nonneg v]
  have hv : v = 0 := by nlinarith [sq_nonneg u, sq_nonneg v]
  subst hu
  subst hv
  have hz : (⟨(0 : ℝ), (0 : ℝ)⟩ : ℂ) = 0 := by
    apply Complex.ext <;> simp
  rw [hz, Complex.arg_zero]
  norm_num

/-- Ranges of one `_lch_to_husl` output pixel: hue passes through, lightness
is clamped into [0, 100], and saturation is never below 0 (it is 0 at the
extremes, and otherwise a nonnegative finite value or infinity). -/
theorem lch_to_husl_ranges (l c h : ℝ) (hc : 0 ≤ c) (hh0 : 0 ≤ h)
    (hh1 : h < 360) (hch : c = 0 → h = 0) :
    (0 ≤ (lch_to_husl (l, c, h)).1 ∧ (lch_to_husl (l, c, h)).1 < 360) ∧
    NF.fin 0 ≤ (lch_to_husl (l, c, h)).2.1 ∧
    (0 ≤ (lch_to_husl (l, c, h)).2.2 ∧ (lch_to_husl (l, c, h)).2.2 ≤ 100) := by
  simp only [lch_to_husl]
  by_cases hl1 : l > L_MAX
  · rw [if_pos hl1]
    exact ⟨⟨hh0, hh1⟩, NF.fin_le_fin.mpr le_rfl, by norm_num, by norm_num⟩
  · rw [if_neg hl1]
    by_cases hl2 : l < L_MIN
    · rw [if_pos hl2]
      exact ⟨⟨hh0, hh1⟩, NF.fin_le_fin.mpr le_rfl, by norm_num, by norm_num⟩
    · rw [if_neg hl2]
      have hLl : l ≤ 99.99 := by
        have := not_lt.mp hl1
        rwa [L_MAX] at this
      have hLg : 0.01 ≤ l := by
        have := not_lt.mp hl2
        rwa [L_MIN] at this
      refine ⟨⟨hh0, hh1⟩, ?_, by linarith, by linarith⟩
      by_cases hc0 : c = 0
      · have hh' := hch hc0
        rw [hc0, hh']
        rcases max_lh_chroma_zero_hue l hl1 hl2 with hmx | ⟨m, hmx, hm⟩
        · rw [hmx, NF.fin_div_pinf, NF.fin_mul_fin]
          exact NF.fin_le_fin.mpr (by norm_num)
        · rw [hmx, NF.fin_div_fin _ hm.ne', NF.fin_mul_fin]
          exact NF.fin_le_fin.mpr (by positivity)
      · have hcpos : 0 < c := lt_of_le_of_ne hc (Ne.symm hc0)
        rcases max_lh_chroma_shape l h with hmx | ⟨m, hmx, hm⟩
        · rw [hmx, NF.fin_div_pinf, NF.fin_mul_fin]
          exact NF.fin_le_fin.mpr (by norm_num)
        · rcases eq_or_lt_of_le hm with hm0 | hm0
          · rw [hmx, ← hm0, NF.fin_div_zero_pos hcpos,
              NF.pinf_mul_fin_pos (by norm_num : (0 : ℝ) < 100)]
            exact NF.fin_le_pinf 0
          · rw [hmx, NF.fin_div_fin _ hm0.ne', NF.fin_mul_fin]
            exact NF.fin_le_fin.mpr (by positivity)

/-- Ranges of one `_rgb_to_husl` output pixel, for any real input pixel. -/
theorem rgb_to_husl_ranges (p : ℝ × ℝ × ℝ) :
    (0 ≤ (rgb_to_husl p).1 ∧ (rgb_to_husl p).1 < 360) ∧
    NF.fin 0 ≤ (rgb_to_husl p).2.1 ∧
    (0 ≤ (rgb_to_husl p).2.2 ∧ (rgb_to_husl p).2.2 ≤ 100) := by
  rw [rgb_to_husl]
  have hq := luv_to_lch_hue_range (xyz_to_luv (rgb_to_xyz p)).1
    (xyz_to_luv (rgb_to_xyz p)).2.1 (xyz_to_luv (rgb_to_xyz p)).2.2
  have hcn := luv_to_lch_c_nonneg (xyz_to_luv (rgb_to_xyz p)).1
    (xyz_to_luv (rgb_to_xyz p)).2.1 (xyz_to_luv (rgb_to_xyz p)).2.2
  have hcz := luv_to_lch_c_zero_hue (xyz_to_luv (rgb_to_xyz p)).1
    (xyz_to_luv (rgb_to_xyz p)).2.1 (xyz_to_luv (rgb_to_xyz p)).2.2
  exact lch_to_husl_ranges _ _ _ hcn hq.1 hq.2 hcz

/-- Every pixel of `to_husl`'s output comes from `_rgb_to_husl` on some input
pixel. -/
theorem mem_to_husl {cs : Option Nat} {img : List (ℝ × ℝ × ℝ)}
    {q : ℝ × NF × ℝ} (hq : q ∈ to_husl cs img) :
    ∃ p, q = rgb_to_husl p := by
  cases cs with
  | none =>
    simp only [to_husl, in_chunks, rgb_to_husl_nd, List.mem_map] at hq
    obtain ⟨p, _, hp⟩ := hq
    exact ⟨p, hp.symm⟩
  | some k =>
    simp only [to_husl, in_chunks, List.mem_flatten, List.mem_map] at hq
    obtain ⟨lsub, ⟨chunk, _, hchunk⟩, hmem⟩ := hq
    rw [← hchunk] at hmem
    simp only [rgb_to_husl_nd, List.mem_map] at hmem
    obtain ⟨p, _, hp⟩ := hmem
    exact ⟨p, hp.symm⟩

/-- C3 amended: for every input array and chunking, every output pixel of
`to_husl` has hue in [0, 360) and lightness in [0, 100], and its saturation
is never below 0 (the saturation upper bound of 100 does not hold for
out-of-gamut inputs; see the counterexample); every hue value produced by the
LUV-to-LCH stage is normalized into [0, 360). -/
theorem C3_range_amended :
    (∀ (cs : Option Nat) (img : List (ℝ × ℝ × ℝ)), ∀ q ∈ to_husl cs img,
      (0 ≤ q.1 ∧ q.1 < 360) ∧ NF.fin 0 ≤ q.2.1 ∧
      (0 ≤ q.2.2 ∧ q.2.2 ≤ 100)) ∧
    (∀ w : ℝ × ℝ × ℝ, 0 ≤ (luv_to_lch w).2.2 ∧ (luv_to_lch w).2.2 < 360) := by
  constructor
  · intro cs img q hq
    obtain ⟨p, rfl⟩ := mem_to_husl hq
    exact rgb_to_husl_ranges p
  · intro w
    exact luv_to_lch_hue_range w.1 w.2.1 w.2.2

/-! Concrete evaluation of the pipeline at the out-of-gamut float pixel
(-0.1292, 0.03876, 0), for the C3 counterexample.  All three channels take
the linear branch of `_to_linear`, so every quantity up to the LUV stage is
an exact rational; its lightness is about 0.0173 (inside the non-extreme
band) while its chroma far exceeds the gamut, so the computed saturation is
about 2638. -/

theorem TOP1_SCALAR_eval_zero :
    TOP1_SCALAR 0 = 284517.0 * 3.240969941904521 - 94839.0 * (-0.498610760293) := rfl

theorem TOP1_SCALAR_eval_one :
    TOP1_SCALAR 1 = 284517.0 * (-0.96924363628087) - 94839.0 * 0.041555057407175 := rfl

theorem TOP1_SCALAR_eval_two :
    TOP1_SCALAR 2 = 284517.0 * 0.055630079696993 - 94839.0 * 1.056971514242878 := rfl

theorem BOTTOM_SCALAR_eval_zero :
    BOTTOM_SCALAR 0 = 632260.0 * (-0.498610760293) - 126452.0 * (-1.537383177570093) := rfl

theorem BOTTOM_SCALAR_eval_one :
    BOTTOM_SCALAR 1 = 632260.0 * 0.041555057407175 - 126452.0 * 1.87596750150772 := rfl

theorem BOTTOM_SCALAR_eval_two :
    BOTTOM_SCALAR 2 = 632260.0 * 1.056971514242878 - 126452.0 * (-0.20397695888897) := rfl

theorem TOP2_L_SCALAR_eval : TOP2_L_SCALAR = 769860.0 := rfl

theorem BOTTOM_CONST_eval : BOTTOM_CONST = 126452.0 := rfl

/-- The XYZ value of the counterexample pixel (all channels linear). -/
theorem c3_xyz_eval :
    rgb_to_xyz ((-0.1292 : ℝ), 0.03876, 0)
      = ((-305115497450789 : ℝ) / 100000000000000000,
         (382319551763 : ℝ) / 20000000000000000,
         (3285523044559 : ℝ) / 20000000000000000) := by
  simp only [rgb_to_xyz, to_linear, to_linear_c, dot_product, dot3,
    M_INV_eval_zero, M_INV_eval_one, M_INV_eval_two]
  rw [if_neg (by norm_num : ¬((-0.1292 : ℝ) > 0.04045)),
    if_neg (by norm_num : ¬((0.03876 : ℝ) > 0.04045)),
    if_neg (by norm_num : ¬((0 : ℝ) > 0.04045))]
  simp only [Prod.mk.injEq]
  refine ⟨by norm_num, by norm_num, by norm_num⟩

/-- Source `_xyz_to_luv` with a nonzero chromaticity denominator takes no special
values. -/
theorem xyz_to_luv_den_ne (x y z : ℝ) (hden : x + 15 * y + 3 * z ≠ 0) :
    xyz_to_luv (x, y, z) = (to_light y,
      to_light y * 13 * (4 * x / (x + 15 * y + 3 * z) - REF_U),
      to_light y * 13 * (9 * y / (x + 15 * y + 3 * z) - REF_V)) := by
  simp only [xyz_to_luv]
  rw [NF.fin_div_fin _ hden, NF.fin_div_fin _ hden]
  simp only [NF.isInf_fin, Bool.false_eq_true, if_false, NF.fin_sub_fin,
    NF.fin_mul_fin, NF.nan_to_num_fin]

/-- The LUV value of the counterexample pixel. -/
theorem c3_luv_eval :
    xyz_to_luv (rgb_to_xyz ((-0.1292 : ℝ), 0.03876, 0))
      = ((3453478351091780384530353769 : ℝ) / 200000000000000000000000000000,
         (405964387254295496821839817897320671576797447376755059767 : ℝ)
           / 349474900615660000000000000000000000000000000000000000000,
         (-42680618321949521661323330972163029170253346883209711229 : ℝ)
           / 349474900615660000000000000000000000000000000000000000000) := by
  rw [c3_xyz_eval, xyz_to_luv_den_ne _ _ _ (by norm_num)]
  have hlight : to_light ((382319551763 : ℝ) / 20000000000000000)
      = (3453478351091780384530353769 : ℝ) / 200000000000000000000000000000 := by
    rw [to_light,
      if_neg (by norm_num [EPSILON] :
        ¬((382319551763 : ℝ) / 20000000000000000 > EPSILON)),
      REF_Y, KAPPA]
    norm_num
  rw [hlight]
  simp only [Prod.mk.injEq]
  refine ⟨trivial, by norm_num [REF_U], by norm_num [REF_V]⟩

/-- Source `bounds_sub` at the counterexample lightness takes the L/KAPPA branch and
recovers exactly the luminance Y. -/
theorem c3_sub_eval :
    bounds_sub ((3453478351091780384530353769 : ℝ) / 200000000000000000000000000000) = ((382319551763 : ℝ) / 20000000000000000) := by
  simp only [bounds_sub]
  rw [if_pos (by norm_num [EPSILON]), KAPPA]
  norm_num

theorem c3_line00 :
    bound_line ((3453478351091780384530353769 : ℝ) / 200000000000000000000000000000) 0 false
      = (NF.fin ((-30664561758019689 : ℝ) / 3822682495579628),
         NF.fin ((-1329347421685763951700096523475275963656815697681 : ℝ) / 12084646173275877996400000000000000000000000000000)) := by
  norm_num [bound_line, c3_sub_eval, TOP1_SCALAR_eval_zero, TOP2_SCALAR_eval_zero, BOTTOM_SCALAR_eval_zero,
    TOP2_L_SCALAR_eval, BOTTOM_CONST_eval, NF.fin_div_fin, Prod.mk.injEq]

theorem c3_line01 :
    bound_line ((3453478351091780384530353769 : ℝ) / 200000000000000000000000000000) 0 true
      = (NF.fin ((11723661506334918769008661707 : ℝ) / 79998538513741757730394165715836),
         NF.fin ((-26586440198204784267325529321538741097886561998344102697961438397 : ℝ) / 252899379803491818713095076077472346800000000000000000000000000000)) := by
  norm_num [bound_line, c3_sub_eval, TOP1_SCALAR_eval_zero, TOP2_SCALAR_eval_zero, BOTTOM_SCALAR_eval_zero,
    TOP2_L_SCALAR_eval, BOTTOM_CONST_eval, NF.fin_div_fin, Prod.mk.injEq]

theorem c3_line10 :
    bound_line ((3453478351091780384530353769 : ℝ) / 200000000000000000000000000000) 1 false
      = (NF.fin ((589857193249957 : ℝ) / 444851257192492),
         NF.fin ((-877457044017009679377885853821407203302561897 : ℝ) / 13923844350124999600000000000000000000000000000)) := by
  norm_num [bound_line, c3_sub_eval, TOP1_SCALAR_eval_one, TOP2_SCALAR_eval_one, BOTTOM_SCALAR_eval_one,
    TOP2_L_SCALAR_eval, BOTTOM_CONST_eval, NF.fin_div_fin, Prod.mk.injEq]

theorem c3_line11 :
    bound_line ((3453478351091780384530353769 : ℝ) / 200000000000000000000000000000) 1 true
      = (NF.fin ((-676541813182514488377072573 : ℝ) / 15999489774000246878286253109812),
         NF.fin ((-5317288039640956853028301387348388743580385977932047627298753467 : ℝ) / 50579187022546980456326331956048675600000000000000000000000000000)) := by
  norm_num [bound_line, c3_sub_eval, TOP1_SCALAR_eval_one, TOP2_SCALAR_eval_one, BOTTOM_SCALAR_eval_one,
    TOP2_L_SCALAR_eval, BOTTOM_CONST_eval, NF.fin_div_fin, Prod.mk.injEq]

theorem c3_line20 :
    bound_line ((3453478351091780384530353769 : ℝ) / 200000000000000000000000000000) 2 false
      = (NF.fin ((-2670243825455697 : ℝ) / 21955338120413440),
         NF.fin ((265869484337153233832946369220618749811769871501 : ℝ) / 13881482080012601574400000000000000000000000000000)) := by
  norm_num [bound_line, c3_sub_eval, TOP1_SCALAR_eval_two, TOP2_SCALAR_eval_two, BOTTOM_SCALAR_eval_two,
    TOP2_L_SCALAR_eval, BOTTOM_CONST_eval, NF.fin_div_fin, Prod.mk.injEq]

theorem c3_line21 :
    bound_line ((3453478351091780384530353769 : ℝ) / 200000000000000000000000000000) 2 true
      = (NF.fin ((-1020886422446140486254743811 : ℝ) / 80008393955029001573301040894720),
         NF.fin ((-5317288039640956853295549847222377954739914450702106029571993737 : ℝ) / 50586107162006636534735316116095667200000000000000000000000000000)) := by
  norm_num [bound_line, c3_sub_eval, TOP1_SCALAR_eval_two, TOP2_SCALAR_eval_two, BOTTOM_SCALAR_eval_two,
    TOP2_L_SCALAR_eval, BOTTOM_CONST_eval, NF.fin_div_fin, Prod.mk.injEq]

theorem snd_fst_triple {a : α} {b : β} {c : γ} : (a, b, c).2.1 = b := rfl

/-- Source `_ray_length` on a finite line, with sine and cosine expressed through a
point (u, v) at distance ab from the origin. -/
theorem ray_length_fin (θ s ic u v ab : ℝ) (hab : 0 < ab)
    (hsin : Real.sin θ = v / ab) (hcos : Real.cos θ = u / ab)
    (hd : v - s * u ≠ 0) :
    ray_length θ (NF.fin s, NF.fin ic) = NF.fin (ab * (ic / (v - s * u))) := by
  simp only [ray_length]
  rw [hsin, hcos, NF.fin_mul_fin, NF.fin_sub_fin]
  have hstep : v / ab - s * (u / ab) = (v - s * u) / ab := by ring
  rw [hstep, NF.fin_div_fin _ (div_ne_zero hd hab.ne')]
  congr 1
  field_simp
  ring

/-- The maximum chroma at the counterexample pixel's lightness and hue: the
minimum is attained on the line (r = 1, t = 0), and equals the point's radius
times about 0.0379. -/
theorem c3_mx_eval :
    max_lh_chroma ((3453478351091780384530353769 : ℝ) / 200000000000000000000000000000)
      (Complex.arg ⟨((405964387254295496821839817897320671576797447376755059767 : ℝ) / 349474900615660000000000000000000000000000000000000000000), ((-42680618321949521661323330972163029170253346883209711229 : ℝ) / 349474900615660000000000000000000000000000000000000000000)⟩ * (180 / Real.pi) + 360)
      = NF.fin (Complex.abs ⟨((405964387254295496821839817897320671576797447376755059767 : ℝ) / 349474900615660000000000000000000000000000000000000000000), ((-42680618321949521661323330972163029170253346883209711229 : ℝ) / 349474900615660000000000000000000000000000000000000000000)⟩ * (((-877457044017009679377885853821407203302561897 : ℝ) / 13923844350124999600000000000000000000000000000) / (((-42680618321949521661323330972163029170253346883209711229 : ℝ) / 349474900615660000000000000000000000000000000000000000000) - ((589857193249957 : ℝ) / 444851257192492) * ((405964387254295496821839817897320671576797447376755059767 : ℝ) / 349474900615660000000000000000000000000000000000000000000)))) := by
  have hz0 : ((⟨((405964387254295496821839817897320671576797447376755059767 : ℝ) / 349474900615660000000000000000000000000000000000000000000), ((-42680618321949521661323330972163029170253346883209711229 : ℝ) / 349474900615660000000000000000000000000000000000000000000)⟩ : ℂ)) ≠ 0 := by
    intro hzz
    have hre := congrArg Complex.re hzz
    simp only [Complex.zero_re] at hre
    norm_num at hre
  have hab : 0 < Complex.abs ⟨((405964387254295496821839817897320671576797447376755059767 : ℝ) / 349474900615660000000000000000000000000000000000000000000), ((-42680618321949521661323330972163029170253346883209711229 : ℝ) / 349474900615660000000000000000000000000000000000000000000)⟩ := Complex.abs.pos hz0
  have hradeq : (Complex.arg ⟨((405964387254295496821839817897320671576797447376755059767 : ℝ) / 349474900615660000000000000000000000000000000000000000000), ((-42680618321949521661323330972163029170253346883209711229 : ℝ) / 349474900615660000000000000000000000000000000000000000000)⟩ * (180 / Real.pi) + 360) / 360.0 * (Real.pi * 2)
      = Complex.arg ⟨((405964387254295496821839817897320671576797447376755059767 : ℝ) / 349474900615660000000000000000000000000000000000000000000), ((-42680618321949521661323330972163029170253346883209711229 : ℝ) / 349474900615660000000000000000000000000000000000000000000)⟩ + 2 * Real.pi := by
    have hpne := Real.pi_ne_zero
    field_simp
    ring
  have hsin : Real.sin ((Complex.arg ⟨((405964387254295496821839817897320671576797447376755059767 : ℝ) / 349474900615660000000000000000000000000000000000000000000), ((-42680618321949521661323330972163029170253346883209711229 : ℝ) / 349474900615660000000000000000000000000000000000000000000)⟩ * (180 / Real.pi) + 360) / 360.0 * (Real.pi * 2)) = ((-42680618321949521661323330972163029170253346883209711229 : ℝ) / 349474900615660000000000000000000000000000000000000000000) / Complex.abs ⟨((405964387254295496821839817897320671576797447376755059767 : ℝ) / 349474900615660000000000000000000000000000000000000000000), ((-42680618321949521661323330972163029170253346883209711229 : ℝ) / 349474900615660000000000000000000000000000000000000000000)⟩ := by
    rw [hradeq, Real.sin_add_two_pi, Complex.sin_arg]
  have hcos : Real.cos ((Complex.arg ⟨((405964387254295496821839817897320671576797447376755059767 : ℝ) / 349474900615660000000000000000000000000000000000000000000), ((-42680618321949521661323330972163029170253346883209711229 : ℝ) / 349474900615660000000000000000000000000000000000000000000)⟩ * (180 / Real.pi) + 360) / 360.0 * (Real.pi * 2)) = ((405964387254295496821839817897320671576797447376755059767 : ℝ) / 349474900615660000000000000000000000000000000000000000000) / Complex.abs ⟨((405964387254295496821839817897320671576797447376755059767 : ℝ) / 349474900615660000000000000000000000000000000000000000000), ((-42680618321949521661323330972163029170253346883209711229 : ℝ) / 349474900615660000000000000000000000000000000000000000000)⟩ := by
    rw [hradeq, Real.cos_add_two_pi, Complex.cos_arg hz0]
  simp only [max_lh_chroma, bounds]
  rw [c3_line00, c3_line01, c3_line10, c3_line11, c3_line20, c3_line21]
  simp only [List.foldl_cons, List.foldl_nil]
  rw [ray_length_fin ((Complex.arg ⟨((405964387254295496821839817897320671576797447376755059767 : ℝ) / 349474900615660000000000000000000000000000000000000000000), ((-42680618321949521661323330972163029170253346883209711229 : ℝ) / 349474900615660000000000000000000000000000000000000000000)⟩ * (180 / Real.pi) + 360) / 360.0 * (Real.pi * 2))
    ((-30664561758019689 : ℝ) / 3822682495579628) ((-1329347421685763951700096523475275963656815697681 : ℝ) / 12084646173275877996400000000000000000000000000000)
    ((405964387254295496821839817897320671576797447376755059767 : ℝ) / 349474900615660000000000000000000000000000000000000000000) ((-42680618321949521661323330972163029170253346883209711229 : ℝ) / 349474900615660000000000000000000000000000000000000000000) (Complex.abs ⟨((405964387254295496821839817897320671576797447376755059767 : ℝ) / 349474900615660000000000000000000000000000000000000000000), ((-42680618321949521661323330972163029170253346883209711229 : ℝ) / 349474900615660000000000000000000000000000000000000000000)⟩) hab hsin hcos (by norm_num)]
  rw [ray_length_fin ((Complex.arg ⟨((405964387254295496821839817897320671576797447376755059767 : ℝ) / 349474900615660000000000000000000000000000000000000000000), ((-42680618321949521661323330972163029170253346883209711229 : ℝ) / 349474900615660000000000000000000000000000000000000000000)⟩ * (180 / Real.pi) + 360) / 360.0 * (Real.pi * 2))
    ((11723661506334918769008661707 : ℝ) / 79998538513741757730394165715836) ((-26586440198204784267325529321538741097886561998344102697961438397 : ℝ) / 252899379803491818713095076077472346800000000000000000000000000000)
    ((405964387254295496821839817897320671576797447376755059767 : ℝ) / 349474900615660000000000000000000000000000000000000000000) ((-42680618321949521661323330972163029170253346883209711229 : ℝ) / 349474900615660000000000000000000000000000000000000000000) (Complex.abs ⟨((405964387254295496821839817897320671576797447376755059767 : ℝ) / 349474900615660000000000000000000000000000000000000000000), ((-42680618321949521661323330972163029170253346883209711229 : ℝ) / 349474900615660000000000000000000000000000000000000000000)⟩) hab hsin hcos (by norm_num)]
  rw [ray_length_fin ((Complex.arg ⟨((405964387254295496821839817897320671576797447376755059767 : ℝ) / 349474900615660000000000000000000000000000000000000000000), ((-42680618321949521661323330972163029170253346883209711229 : ℝ) / 349474900615660000000000000000000000000000000000000000000)⟩ * (180 / Real.pi) + 360) / 360.0 * (Real.pi * 2))
    ((589857193249957 : ℝ) / 444851257192492) ((-877457044017009679377885853821407203302561897 : ℝ) / 13923844350124999600000000000000000000000000000)
    ((405964387254295496821839817897320671576797447376755059767 : ℝ) / 349474900615660000000000000000000000000000000000000000000) ((-42680618321949521661323330972163029170253346883209711229 : ℝ) / 349474900615660000000000000000000000000000000000000000000) (Complex.abs ⟨((405964387254295496821839817897320671576797447376755059767 : ℝ) / 349474900615660000000000000000000000000000000000000000000), ((-42680618321949521661323330972163029170253346883209711229 : ℝ) / 349474900615660000000000000000000000000000000000000000000)⟩) hab hsin hcos (by norm_num)]
  rw [ray_length_fin ((Complex.arg ⟨((405964387254295496821839817897320671576797447376755059767 : ℝ) / 349474900615660000000000000000000000000000000000000000000), ((-42680618321949521661323330972163029170253346883209711229 : ℝ) / 349474900615660000000000000000000000000000000000000000000)⟩ * (180 / Real.pi) + 360) / 360.0 * (Real.pi * 2))
    ((-676541813182514488377072573 : ℝ) / 15999489774000246878286253109812) ((-5317288039640956853028301387348388743580385977932047627298753467 : ℝ) / 50579187022546980456326331956048675600000000000000000000000000000)
    ((405964387254295496821839817897320671576797447376755059767 : ℝ) / 349474900615660000000000000000000000000000000000000000000) ((-42680618321949521661323330972163029170253346883209711229 : ℝ) / 349474900615660000000000000000000000000000000000000000000) (Complex.abs ⟨((405964387254295496821839817897320671576797447376755059767 : ℝ) / 349474900615660000000000000000000000000000000000000000000), ((-42680618321949521661323330972163029170253346883209711229 : ℝ) / 349474900615660000000000000000000000000000000000000000000)⟩) hab hsin hcos (by norm_num)]
  rw [ray_length_fin ((Complex.arg ⟨((405964387254295496821839817897320671576797447376755059767 : ℝ) / 349474900615660000000000000000000000000000000000000000000), ((-42680618321949521661323330972163029170253346883209711229 : ℝ) / 349474900615660000000000000000000000000000000000000000000)⟩ * (180 / Real.pi) + 360) / 360.0 * (Real.pi * 2))
    ((-2670243825455697 : ℝ) / 21955338120413440) ((265869484337153233832946369220618749811769871501 : ℝ) / 13881482080012601574400000000000000000000000000000)
    ((405964387254295496821839817897320671576797447376755059767 : ℝ) / 349474900615660000000000000000000000000000000000000000000) ((-42680618321949521661323330972163029170253346883209711229 : ℝ) / 349474900615660000000000000000000000000000000000000000000) (Complex.abs ⟨((405964387254295496821839817897320671576797447376755059767 : ℝ) / 349474900615660000000000000000000000000000000000000000000), ((-42680618321949521661323330972163029170253346883209711229 : ℝ) / 349474900615660000000000000000000000000000000000000000000)⟩) hab hsin hcos (by norm_num)]
  rw [ray_length_fin ((Complex.arg ⟨((405964387254295496821839817897320671576797447376755059767 : ℝ) / 349474900615660000000000000000000000000000000000000000000), ((-42680618321949521661323330972163029170253346883209711229 : ℝ) / 349474900615660000000000000000000000000000000000000000000)⟩ * (180 / Real.pi) + 360) / 360.0 * (Real.pi * 2))
    ((-1020886422446140486254743811 : ℝ) / 80008393955029001573301040894720) ((-5317288039640956853295549847222377954739914450702106029571993737 : ℝ) / 50586107162006636534735316116095667200000000000000000000000000000)
    ((405964387254295496821839817897320671576797447376755059767 : ℝ) / 349474900615660000000000000000000000000000000000000000000) ((-42680618321949521661323330972163029170253346883209711229 : ℝ) / 349474900615660000000000000000000000000000000000000000000) (Complex.abs ⟨((405964387254295496821839817897320671576797447376755059767 : ℝ) / 349474900615660000000000000000000000000000000000000000000), ((-42680618321949521661323330972163029170253346883209711229 : ℝ) / 349474900615660000000000000000000000000000000000000000000)⟩) hab hsin hcos (by norm_num)]
  simp only [mask_len_fin]
  rw [if_pos (mul_neg_of_pos_of_neg hab (by norm_num : (((-1329347421685763951700096523475275963656815697681 : ℝ) / 12084646173275877996400000000000000000000000000000) / (((-42680618321949521661323330972163029170253346883209711229 : ℝ) / 349474900615660000000000000000000000000000000000000000000) - ((-30664561758019689 : ℝ) / 3822682495579628) * ((405964387254295496821839817897320671576797447376755059767 : ℝ) / 349474900615660000000000000000000000000000000000000000000))) < 0)),
    if_neg (not_lt.mpr (mul_nonneg hab.le (by norm_num : (0:ℝ) ≤ (((-26586440198204784267325529321538741097886561998344102697961438397 : ℝ) / 252899379803491818713095076077472346800000000000000000000000000000) / (((-42680618321949521661323330972163029170253346883209711229 : ℝ) / 349474900615660000000000000000000000000000000000000000000) - ((11723661506334918769008661707 : ℝ) / 79998538513741757730394165715836) * ((405964387254295496821839817897320671576797447376755059767 : ℝ) / 349474900615660000000000000000000000000000000000000000000)))))),
    if_neg (not_lt.mpr (mul_nonneg hab.le (by norm_num : (0:ℝ) ≤ (((-877457044017009679377885853821407203302561897 : ℝ) / 13923844350124999600000000000000000000000000000) / (((-42680618321949521661323330972163029170253346883209711229 : ℝ) / 349474900615660000000000000000000000000000000000000000000) - ((589857193249957 : ℝ) / 444851257192492) * ((405964387254295496821839817897320671576797447376755059767 : ℝ) / 349474900615660000000000000000000000000000000000000000000)))))),
    if_neg (not_lt.mpr (mul_nonneg hab.le (by norm_num : (0:ℝ) ≤ (((-5317288039640956853028301387348388743580385977932047627298753467 : ℝ) / 50579187022546980456326331956048675600000000000000000000000000000) / (((-42680618321949521661323330972163029170253346883209711229 : ℝ) / 349474900615660000000000000000000000000000000000000000000) - ((-676541813182514488377072573 : ℝ) / 15999489774000246878286253109812) * ((405964387254295496821839817897320671576797447376755059767 : ℝ) / 349474900615660000000000000000000000000000000000000000000)))))),
    if_neg (not_lt.mpr (mul_nonneg hab.le (by norm_num : (0:ℝ) ≤ (((265869484337153233832946369220618749811769871501 : ℝ) / 13881482080012601574400000000000000000000000000000) / (((-42680618321949521661323330972163029170253346883209711229 : ℝ) / 349474900615660000000000000000000000000000000000000000000) - ((-2670243825455697 : ℝ) / 21955338120413440) * ((405964387254295496821839817897320671576797447376755059767 : ℝ) / 349474900615660000000000000000000000000000000000000000000)))))),
    if_neg (not_lt.mpr (mul_nonneg hab.le (by norm_num : (0:ℝ) ≤ (((-5317288039640956853295549847222377954739914450702106029571993737 : ℝ) / 50586107162006636534735316116095667200000000000000000000000000000) / (((-42680618321949521661323330972163029170253346883209711229 : ℝ) / 349474900615660000000000000000000000000000000000000000000) - ((-1020886422446140486254743811 : ℝ) / 80008393955029001573301040894720) * ((405964387254295496821839817897320671576797447376755059767 : ℝ) / 349474900615660000000000000000000000000000000000000000000))))))]
  rw [NF.min_pinf_left, NF.min_pinf_right]
  rw [NF.min_fin_fin, min_eq_left (mul_le_mul_of_nonneg_left
    (by norm_num : (((-877457044017009679377885853821407203302561897 : ℝ) / 13923844350124999600000000000000000000000000000) / (((-42680618321949521661323330972163029170253346883209711229 : ℝ) / 349474900615660000000000000000000000000000000000000000000) - ((589857193249957 : ℝ) / 444851257192492) * ((405964387254295496821839817897320671576797447376755059767 : ℝ) / 349474900615660000000000000000000000000000000000000000000))) ≤ (((-26586440198204784267325529321538741097886561998344102697961438397 : ℝ) / 252899379803491818713095076077472346800000000000000000000000000000) / (((-42680618321949521661323330972163029170253346883209711229 : ℝ) / 349474900615660000000000000000000000000000000000000000000) - ((11723661506334918769008661707 : ℝ) / 79998538513741757730394165715836) * ((405964387254295496821839817897320671576797447376755059767 : ℝ) / 349474900615660000000000000000000000000000000000000000000)))) hab.le)]
  rw [NF.min_fin_fin, min_eq_right (mul_le_mul_of_nonneg_left
    (by norm_num : (((-877457044017009679377885853821407203302561897 : ℝ) / 13923844350124999600000000000000000000000000000) / (((-42680618321949521661323330972163029170253346883209711229 : ℝ) / 349474900615660000000000000000000000000000000000000000000) - ((589857193249957 : ℝ) / 444851257192492) * ((405964387254295496821839817897320671576797447376755059767 : ℝ) / 349474900615660000000000000000000000000000000000000000000))) ≤ (((-5317288039640956853028301387348388743580385977932047627298753467 : ℝ) / 50579187022546980456326331956048675600000000000000000000000000000) / (((-42680618321949521661323330972163029170253346883209711229 : ℝ) / 349474900615660000000000000000000000000000000000000000000) - ((-676541813182514488377072573 : ℝ) / 15999489774000246878286253109812) * ((405964387254295496821839817897320671576797447376755059767 : ℝ) / 349474900615660000000000000000000000000000000000000000000)))) hab.le)]
  rw [NF.min_fin_fin, min_eq_right (mul_le_mul_of_nonneg_left
    (by norm_num : (((-877457044017009679377885853821407203302561897 : ℝ) / 13923844350124999600000000000000000000000000000) / (((-42680618321949521661323330972163029170253346883209711229 : ℝ) / 349474900615660000000000000000000000000000000000000000000) - ((589857193249957 : ℝ) / 444851257192492) * ((405964387254295496821839817897320671576797447376755059767 : ℝ) / 349474900615660000000000000000000000000000000000000000000))) ≤ (((265869484337153233832946369220618749811769871501 : ℝ) / 13881482080012601574400000000000000000000000000000) / (((-42680618321949521661323330972163029170253346883209711229 : ℝ) / 349474900615660000000000000000000000000000000000000000000) - ((-2670243825455697 : ℝ) / 21955338120413440) * ((405964387254295496821839817897320671576797447376755059767 : ℝ) / 349474900615660000000000000000000000000000000000000000000)))) hab.le)]
  rw [NF.min_fin_fin, min_eq_right (mul_le_mul_of_nonneg_left
    (by norm_num : (((-877457044017009679377885853821407203302561897 : ℝ) / 13923844350124999600000000000000000000000000000) / (((-42680618321949521661323330972163029170253346883209711229 : ℝ) / 349474900615660000000000000000000000000000000000000000000) - ((589857193249957 : ℝ) / 444851257192492) * ((405964387254295496821839817897320671576797447376755059767 : ℝ) / 349474900615660000000000000000000000000000000000000000000))) ≤ (((-5317288039640956853295549847222377954739914450702106029571993737 : ℝ) / 50586107162006636534735316116095667200000000000000000000000000000) / (((-42680618321949521661323330972163029170253346883209711229 : ℝ) / 349474900615660000000000000000000000000000000000000000000) - ((-1020886422446140486254743811 : ℝ) / 80008393955029001573301040894720) * ((405964387254295496821839817897320671576797447376755059767 : ℝ) / 349474900615660000000000000000000000000000000000000000000)))) hab.le)]

/-- C3 counterexample: `to_husl` on the single out-of-gamut float pixel
(-0.1292, 0.03876, 0) (lightness about 0.0173, so no extreme override fires)
produces a saturation of about 2638, far above 100, so the claimed range
invariant saturation in [0, 100] fails. -/
theorem C3_saturation_counterexample :
    to_husl none [((-0.1292 : ℝ), 0.03876, 0)]
      = [rgb_to_husl ((-0.1292 : ℝ), 0.03876, 0)] ∧
    ¬(rgb_to_husl ((-0.1292 : ℝ), 0.03876, 0)).2.1 ≤ NF.fin 100 := by
  have hz0 : ((⟨((405964387254295496821839817897320671576797447376755059767 : ℝ) / 349474900615660000000000000000000000000000000000000000000), ((-42680618321949521661323330972163029170253346883209711229 : ℝ) / 349474900615660000000000000000000000000000000000000000000)⟩ : ℂ)) ≠ 0 := by
    intro hzz
    have hre := congrArg Complex.re hzz
    simp only [Complex.zero_re] at hre
    norm_num at hre
  have hab : 0 < Complex.abs ⟨((405964387254295496821839817897320671576797447376755059767 : ℝ) / 349474900615660000000000000000000000000000000000000000000), ((-42680618321949521661323330972163029170253346883209711229 : ℝ) / 349474900615660000000000000000000000000000000000000000000)⟩ := Complex.abs.pos hz0
  have hdegneg : Complex.arg ⟨((405964387254295496821839817897320671576797447376755059767 : ℝ) / 349474900615660000000000000000000000000000000000000000000), ((-42680618321949521661323330972163029170253346883209711229 : ℝ) / 349474900615660000000000000000000000000000000000000000000)⟩ * (180 / Real.pi) < 0 := by
    apply mul_neg_of_neg_of_pos
    · exact Complex.arg_neg_iff.mpr (by norm_num : ((-42680618321949521661323330972163029170253346883209711229 : ℝ) / 349474900615660000000000000000000000000000000000000000000) < (0:ℝ))
    · positivity
  constructor
  · rfl
  · rw [rgb_to_husl, c3_luv_eval, luv_to_lch_parts, if_pos hdegneg]
    simp only [lch_to_husl]
    rw [if_neg (by norm_num [L_MAX]), if_neg (by norm_num [L_MIN])]
    rw [snd_fst_triple, c3_mx_eval]
    have hC0 : (((405964387254295496821839817897320671576797447376755059767 : ℝ) / 349474900615660000000000000000000000000000000000000000000) ^ 2 + ((-42680618321949521661323330972163029170253346883209711229 : ℝ) / 349474900615660000000000000000000000000000000000000000000) ^ 2) ^ (0.5 : ℝ)
        = Complex.abs ⟨((405964387254295496821839817897320671576797447376755059767 : ℝ) / 349474900615660000000000000000000000000000000000000000000), ((-42680618321949521661323330972163029170253346883209711229 : ℝ) / 349474900615660000000000000000000000000000000000000000000)⟩ := by
      rw [show (0.5 : ℝ) = 1 / 2 by norm_num, ← Real.sqrt_eq_rpow,
        Complex.abs_apply, Complex.normSq_mk]
      congr 1
      ring
    rw [hC0]
    have hqpos : (0 : ℝ) < (((-877457044017009679377885853821407203302561897 : ℝ) / 13923844350124999600000000000000000000000000000) / (((-42680618321949521661323330972163029170253346883209711229 : ℝ) / 349474900615660000000000000000000000000000000000000000000) - ((589857193249957 : ℝ) / 444851257192492) * ((405964387254295496821839817897320671576797447376755059767 : ℝ) / 349474900615660000000000000000000000000000000000000000000))) := by norm_num
    have hprod : Complex.abs ⟨((405964387254295496821839817897320671576797447376755059767 : ℝ) / 349474900615660000000000000000000000000000000000000000000), ((-42680618321949521661323330972163029170253346883209711229 : ℝ) / 349474900615660000000000000000000000000000000000000000000)⟩ * (((-877457044017009679377885853821407203302561897 : ℝ) / 13923844350124999600000000000000000000000000000) / (((-42680618321949521661323330972163029170253346883209711229 : ℝ) / 349474900615660000000000000000000000000000000000000000000) - ((589857193249957 : ℝ) / 444851257192492) * ((405964387254295496821839817897320671576797447376755059767 : ℝ) / 349474900615660000000000000000000000000000000000000000000))) ≠ 0 := (mul_pos hab hqpos).ne'
    rw [NF.fin_div_fin _ hprod, NF.fin_mul_fin, NF.fin_le_fin, not_le]
    have heq : Complex.abs ⟨((405964387254295496821839817897320671576797447376755059767 : ℝ) / 349474900615660000000000000000000000000000000000000000000), ((-42680618321949521661323330972163029170253346883209711229 : ℝ) / 349474900615660000000000000000000000000000000000000000000)⟩ / (Complex.abs ⟨((405964387254295496821839817897320671576797447376755059767 : ℝ) / 349474900615660000000000000000000000000000000000000000000), ((-42680618321949521661323330972163029170253346883209711229 : ℝ) / 349474900615660000000000000000000000000000000000000000000)⟩ * (((-877457044017009679377885853821407203302561897 : ℝ) / 13923844350124999600000000000000000000000000000) / (((-42680618321949521661323330972163029170253346883209711229 : ℝ) / 349474900615660000000000000000000000000000000000000000000) - ((589857193249957 : ℝ) / 444851257192492) * ((405964387254295496821839817897320671576797447376755059767 : ℝ) / 349474900615660000000000000000000000000000000000000000000)))) * 100
        = 100 / (((-877457044017009679377885853821407203302561897 : ℝ) / 13923844350124999600000000000000000000000000000) / (((-42680618321949521661323330972163029170253346883209711229 : ℝ) / 349474900615660000000000000000000000000000000000000000000) - ((589857193249957 : ℝ) / 444851257192492) * ((405964387254295496821839817897320671576797447376755059767 : ℝ) / 349474900615660000000000000000000000000000000000000000000))) := by
      field_simp
      ring
    rw [heq, lt_div_iff hqpos]
    norm_num

/-- Witness for C3 amended at the black pixel. -/
theorem C3_witness :
    (rgb_to_husl (0, 0, 0) ∈ to_husl none [((0 : ℝ), (0 : ℝ), (0 : ℝ))]) ∧
    ((0 ≤ (rgb_to_husl ((0 : ℝ), (0 : ℝ), (0 : ℝ))).1 ∧
      (rgb_to_husl ((0 : ℝ), (0 : ℝ), (0 : ℝ))).1 < 360) ∧
     NF.fin 0 ≤ (rgb_to_husl ((0 : ℝ), (0 : ℝ), (0 : ℝ))).2.1 ∧
     (0 ≤ (rgb_to_husl ((0 : ℝ), (0 : ℝ), (0 : ℝ))).2.2 ∧
      (rgb_to_husl ((0 : ℝ), (0 : ℝ), (0 : ℝ))).2.2 ≤ 100)) := by
  have hmem : rgb_to_husl (0, 0, 0) ∈ to_husl none [((0 : ℝ), (0 : ℝ), (0 : ℝ))] := by
    simp [to_husl, in_chunks, rgb_to_husl_nd]
  exact ⟨hmem, C3_range_amended.1 none _ _ hmem⟩

end NPHusl
